import Mathlib

/-!
# Sync-task manager (`internal/syncdrive/sync_task_mgr.go`)

A shallow embedding of `SyncTaskManager`: `NewSyncTaskManager`, `parseConfigFile`,
`ConfigFilePath`, `Start` and `Stop`.

Go state is passed explicitly.  Every operation takes the manager and a `World`
(the file system, the counters of the external generators, and a trace of the
external calls made so far) and returns the outcome of the call together with
the new manager and the new world.  The external collaborators (the JSON codec,
`path.Join`, `utils.UuidStr`, and the `Start`/`Stop` methods of a task) are the
fields of an `Env`; theorems quantify over every `Env`.  A call of a collaborator
is taken to return.

Console output (`fmt.Println`, `logger.Verboseln`) and the 200 ms pause of
`Start` are not part of the model.
-/

namespace SyncDrive

/-- Modelled from the spec: the `SyncTask` record, whose declaration is in another
file of the package.  The first seven fields are the persisted ones (the JSON keys
`name`, `id`, `driveId`, `localFolderPath`, `panFolderPath`, `mode`,
`lastSyncTime` of the sample in `parseConfigFile`); the others are the runtime
fields that `Start` assigns.  Pointers are addresses, `0` being `nil`. -/
structure SyncTask where
  Name : String
  Id : String
  DriveId : String
  LocalFolderPath : String
  PanFolderPath : String
  Mode : String
  LastSyncTime : String
  panUser : Nat
  syncDbFolderPath : String
  panClient : Nat
  fileUploadParallel : Int
  fileDownloadParallel : Int
  fileUploadBlockSize : Int
  fileDownloadBlockSize : Int
  useInternalUrl : Bool
  maxDownloadRate : Int
  maxUploadRate : Int
deriving DecidableEq

/-- The Go struct `SyncDriveConfig`.  An entry of `SyncTaskList` is a pointer
`*SyncTask`: `none` is the `nil` pointer (a JSON `null` in the list). -/
structure SyncDriveConfig where
  ConfigVer : String
  SyncTaskList : List (Option SyncTask)
deriving DecidableEq

/-- The Go struct `SyncTaskManager`; `syncDriveConfig` is a pointer and may be `nil`. -/
structure SyncTaskManager where
  syncDriveConfig : Option SyncDriveConfig
  fileDownloadParallel : Int
  fileUploadParallel : Int
  fileDownloadBlockSize : Int
  fileUploadBlockSize : Int
  useInternalUrl : Bool
  maxDownloadRate : Int
  maxUploadRate : Int
  PanUser : Nat
  DriveId : String
  PanClient : Nat
  SyncConfigFolderPath : String
deriving DecidableEq

/-- Go `error` values that the manager handles. -/
inductive GoError
  | ErrSyncTaskListEmpty
  | errorf (msg : String)
  | other (msg : String)
deriving DecidableEq

/-- What a call does: it returns `(bool, error)`, or the goroutine panics. -/
inductive Outcome
  | ret (ok : Bool) (err : Option GoError)
  | panicked (msg : String)
deriving DecidableEq

/-- The external calls recorded in the trace.  `taskStop` carries the receiver of the
call, which may be the `nil` pointer. -/
inductive Event
  | readFile (path : String)
  | taskStart (idx : Nat) (task : SyncTask)
  | taskStop (idx : Nat) (task : Option SyncTask)
  | writeFile (path : String) (data : String)
deriving DecidableEq

/-- What a path of the file system holds. -/
inductive FileNode
  | file (data : String)
  | unreadable (err : String)
deriving DecidableEq

/-- How a write fails: the file cannot be opened, and is left as it is; or the file
has been opened, which truncates it, and the write stops after `written` characters. -/
inductive WriteFault
  | atOpen (err : String)
  | afterOpen (err : String) (written : Nat)
deriving DecidableEq

/-- The world outside the manager. `writeErr p` is the way `ioutil.WriteFile` fails
for path `p`, if it does. -/
structure World where
  files : String → Option FileNode
  writeErr : String → Option WriteFault
  uuidCalls : Nat
  taskCalls : Nat
  trace : List Event

/-- The external collaborators. `uuidStr n` is the value of the `n`-th call of
`utils.UuidStr`; `taskStart n t` (`taskStop n t`) is what the `n`-th call of a task
method does to the task `t` it is invoked on, and the error it returns. -/
structure Env where
  pathJoin : String → String → String
  jsonUnmarshal : String → SyncDriveConfig → SyncDriveConfig × Option GoError
  objectToJsonStr : SyncDriveConfig → String
  uuidStr : Nat → String
  taskStart : Nat → SyncTask → SyncTask × Option GoError
  taskStop : Nat → SyncTask → SyncTask × Option GoError

/-- The file system `files` with `node` at `path`. -/
def setFile (files : String → Option FileNode) (path : String) (node : FileNode) :
    String → Option FileNode :=
  fun q => if q = path then some node else files q

/-- The Go `utils.PathExists`: whether the path holds anything. -/
def pathExists (w : World) (path : String) : Bool :=
  (w.files path).isSome

/-- The Go `ioutil.ReadFile`. -/
def readFile (w : World) (path : String) : Except GoError String × World :=
  let w1 : World := { w with trace := w.trace ++ [Event.readFile path] }
  match w.files path with
  | some (FileNode.file data) => (Except.ok data, w1)
  | some (FileNode.unreadable e) => (Except.error (GoError.other e), w1)
  | none => (Except.error (GoError.other "no such file or directory"), w1)

/-- The Go `ioutil.WriteFile`: it opens the file, truncating it, and writes `data`.
A write that fails after the open leaves the part already written. -/
def writeFile (w : World) (path : String) (data : String) : Option GoError × World :=
  let w1 : World := { w with trace := w.trace ++ [Event.writeFile path data] }
  match w.writeErr path with
  | some (WriteFault.atOpen e) => (some (GoError.other e), w1)
  | some (WriteFault.afterOpen e n) =>
    (some (GoError.other e),
     { w1 with files := setFile w.files path (FileNode.file (data.take n)) })
  | none => (none, { w1 with files := setFile w.files path (FileNode.file data) })

def NewSyncTaskManager (user : Nat) (driveId : String) (panClient : Nat)
    (syncConfigFolderPath : String) (fileDownloadParallel fileUploadParallel : Int)
    (fileDownloadBlockSize fileUploadBlockSize : Int) (useInternalUrl : Bool)
    (maxDownloadRate maxUploadRate : Int) : SyncTaskManager :=
  { syncDriveConfig := none
    PanUser := user
    DriveId := driveId
    PanClient := panClient
    SyncConfigFolderPath := syncConfigFolderPath
    fileDownloadParallel := fileDownloadParallel
    fileUploadParallel := fileUploadParallel
    fileDownloadBlockSize := fileDownloadBlockSize
    fileUploadBlockSize := fileUploadBlockSize
    useInternalUrl := useInternalUrl
    maxDownloadRate := maxDownloadRate
    maxUploadRate := maxUploadRate }

def ConfigFilePath (env : Env) (m : SyncTaskManager) : String :=
  env.pathJoin m.SyncConfigFolderPath "sync_drive_config.json"

/-- The document `parseConfigFile` installs before it looks at the file. -/
def defaultConfig : SyncDriveConfig :=
  { ConfigVer := "1.0", SyncTaskList := [] }

def parseConfigFile (env : Env) (m : SyncTaskManager) (w : World) :
    Option GoError × SyncTaskManager × World :=
  let configFilePath := ConfigFilePath env m
  let r : SyncDriveConfig := { ConfigVer := "1.0", SyncTaskList := [] }
  let m1 : SyncTaskManager := { m with syncDriveConfig := some r }
  if pathExists w configFilePath != true then
    (some (GoError.errorf ("备份配置文件不存在：" ++ ConfigFilePath env m1)), m1, w)
  else
    match readFile w configFilePath with
    | (Except.error e, w1) => (some e, m1, w1)
    | (Except.ok data, w1) =>
      if data.length > 0 then
        match env.jsonUnmarshal data r with
        | (r1, some err2) => (some err2, { m1 with syncDriveConfig := some r1 }, w1)
        | (r1, none) => (none, { m1 with syncDriveConfig := some r1 }, w1)
      else
        (none, m1, w1)

/-- The body of the loop of `Start` for the task at position `idx`, a task that is not
`nil`. -/
def startBody (env : Env) (m : SyncTaskManager) (idx : Nat) (task : SyncTask) (w : World) :
    SyncTask × World :=
  let gen : Bool := task.Id.length == 0
  let t1 : SyncTask := if gen then { task with Id := env.uuidStr w.uuidCalls } else task
  let w1 : World := if gen then { w with uuidCalls := w.uuidCalls + 1 } else w
  let t2 : SyncTask :=
    { t1 with
      panUser := m.PanUser
      DriveId := m.DriveId
      syncDbFolderPath := m.SyncConfigFolderPath
      panClient := m.PanClient
      fileUploadParallel := m.fileUploadParallel
      fileDownloadParallel := m.fileDownloadParallel
      fileUploadBlockSize := m.fileUploadBlockSize
      fileDownloadBlockSize := m.fileDownloadBlockSize
      useInternalUrl := m.useInternalUrl
      maxDownloadRate := m.maxDownloadRate
      maxUploadRate := m.maxUploadRate }
  let res := env.taskStart w1.taskCalls t2
  -- whether `res.2` is an error or not, the loop goes on to the next task
  (res.1, { w1 with taskCalls := w1.taskCalls + 1, trace := w1.trace ++ [Event.taskStart idx t2] })

/-- The loop of `Start` over the task list, from position `idx` on.  The first component
tells whether the loop ran to its end: at a `nil` entry `task.Id` is a nil pointer
dereference, and the loop stops there, the entries before it processed. -/
def startLoop (env : Env) (m : SyncTaskManager) :
    Nat → List (Option SyncTask) → World → Bool × List (Option SyncTask) × World
  | _, [], w => (true, [], w)
  | _, none :: rest, w => (false, none :: rest, w)
  | idx, some task :: rest, w =>
    let r1 := startBody env m idx task w
    let r2 := startLoop env m (idx + 1) rest r1.2
    (r2.1, some r1.1 :: r2.2.1, r2.2.2)

def Start (env : Env) (m : SyncTaskManager) (w : World) : Outcome × SyncTaskManager × World :=
  match parseConfigFile env m w with
  | (some er, m1, w1) => (Outcome.ret false (some er), m1, w1)
  | (none, m1, w1) =>
    match m1.syncDriveConfig with
    | none => (Outcome.panicked "nil pointer dereference", m1, w1)
    | some cfg =>
      if cfg.SyncTaskList.length == 0 then
        (Outcome.ret false (some GoError.ErrSyncTaskListEmpty), m1, w1)
      else
        let r := startLoop env m1 0 cfg.SyncTaskList w1
        let cfg2 : SyncDriveConfig := { cfg with SyncTaskList := r.2.1 }
        let m2 : SyncTaskManager := { m1 with syncDriveConfig := some cfg2 }
        if r.1 then
          -- the error of the write is dropped
          let wr := writeFile r.2.2 (ConfigFilePath env m2) (env.objectToJsonStr cfg2)
          (Outcome.ret true none, m2, wr.2)
        else
          (Outcome.panicked "nil pointer dereference", m2, r.2.2)

/-- The body of the loop of `Stop` for the entry at position `idx`.  With a `nil` entry
the call has a `nil` receiver, and there is no record for the method to change. -/
def stopBody (env : Env) (idx : Nat) (entry : Option SyncTask) (w : World) :
    Option SyncTask × World :=
  let w1 : World :=
    { w with taskCalls := w.taskCalls + 1, trace := w.trace ++ [Event.taskStop idx entry] }
  match entry with
  | none => (none, w1)
  | some task => (some (env.taskStop w.taskCalls task).1, w1)

/-- The loop of `Stop` over the task list, from position `idx` on. -/
def stopLoop (env : Env) :
    Nat → List (Option SyncTask) → World → List (Option SyncTask) × World
  | _, [], w => ([], w)
  | idx, entry :: rest, w =>
    let r1 := stopBody env idx entry w
    let r2 := stopLoop env (idx + 1) rest r1.2
    (r1.1 :: r2.1, r2.2)

def Stop (env : Env) (m : SyncTaskManager) (w : World) : Outcome × SyncTaskManager × World :=
  match m.syncDriveConfig with
  | none => (Outcome.panicked "nil pointer dereference", m, w)
  | some cfg =>
    let r := stopLoop env 0 cfg.SyncTaskList w
    let cfg2 : SyncDriveConfig := { cfg with SyncTaskList := r.1 }
    let m2 : SyncTaskManager := { m with syncDriveConfig := some cfg2 }
    -- the error of the write is dropped
    let wr := writeFile r.2 (ConfigFilePath env m2) (env.objectToJsonStr cfg2)
    (Outcome.ret true none, m2, wr.2)

/-! ## Notions used in the statements and proofs -/

/-- The loop of `Start` over task records, none of them `nil` (used in proofs: on such
a list `startLoop` runs to its end and does what this function does). -/
def startRecords (env : Env) (m : SyncTaskManager) :
    Nat → List SyncTask → World → List SyncTask × World
  | _, [], w => ([], w)
  | idx, task :: rest, w =>
    let r1 := startBody env m idx task w
    let r2 := startRecords env m (idx + 1) rest r1.2
    (r1.1 :: r2.1, r2.2)

/-- The record `t` with the id `id` and the runtime fields and drive id of `m`. -/
def injected (m : SyncTaskManager) (t : SyncTask) (id : String) : SyncTask :=
  { t with
    Id := id
    panUser := m.PanUser
    DriveId := m.DriveId
    syncDbFolderPath := m.SyncConfigFolderPath
    panClient := m.PanClient
    fileUploadParallel := m.fileUploadParallel
    fileDownloadParallel := m.fileDownloadParallel
    fileUploadBlockSize := m.fileUploadBlockSize
    fileDownloadBlockSize := m.fileDownloadBlockSize
    useInternalUrl := m.useInternalUrl
    maxDownloadRate := m.maxDownloadRate
    maxUploadRate := m.maxUploadRate }

/-- The record `t` is what `Start` hands to the `Start` method for the document's
record `t0`: the fields of `t0`, an id (that of `t0` if it has one), and the runtime
fields and drive id of the manager. -/
def handedOver (m : SyncTaskManager) (t0 t : SyncTask) : Prop :=
  ∃ id, t = injected m t0 id ∧ (t0.Id ≠ "" → id = t0.Id)

/-- The `id`s of a task list, in document order (`none` for a `nil` entry). -/
def taskIds (es : List (Option SyncTask)) : List (Option String) :=
  es.map (fun e => e.map (fun t => t.Id))

/-- The positions of the tasks whose `Start` method a trace invokes, in order. -/
def startedIdxs (tr : List Event) : List Nat :=
  tr.filterMap (fun e => match e with
    | Event.taskStart i _ => some i
    | _ => none)

/-- A task method that leaves the `id` of the task alone. -/
def keepsId (f : Nat → SyncTask → SyncTask × Option GoError) : Prop :=
  ∀ (n : Nat) (t : SyncTask), (f n t).1.Id = t.Id

/-- A task method that leaves the persisted fields other than `id` alone. -/
def keepsFields (f : Nat → SyncTask → SyncTask × Option GoError) : Prop :=
  ∀ (n : Nat) (t : SyncTask),
    (f n t).1.Name = t.Name ∧ (f n t).1.DriveId = t.DriveId ∧
    (f n t).1.LocalFolderPath = t.LocalFolderPath ∧ (f n t).1.PanFolderPath = t.PanFolderPath ∧
    (f n t).1.Mode = t.Mode ∧ (f n t).1.LastSyncTime = t.LastSyncTime

/-- What `Start` makes of the `id` of a loaded task `t0`: a non-empty one is kept, an
empty one is replaced by the non-empty value of a call of the generator numbered
`c` or later. -/
def idAssigned (env : Env) (c : Nat) (t0 t : SyncTask) : Prop :=
  (t0.Id ≠ "" → t.Id = t0.Id) ∧
  (t0.Id = "" → t.Id ≠ "" ∧ ∃ n, c ≤ n ∧ t.Id = env.uuidStr n)

/-- The fields of a loaded task `t0` that `Start` passes through to the task `t`. -/
def passedThrough (t0 t : SyncTask) : Prop :=
  t.Name = t0.Name ∧ t.LocalFolderPath = t0.LocalFolderPath ∧
    t.PanFolderPath = t0.PanFolderPath ∧ t.Mode = t0.Mode ∧ t.LastSyncTime = t0.LastSyncTime

/-! ## A sample environment, for concrete runs -/

/-- A task record as the decoder builds it: persisted fields given, runtime fields zero. -/
def sampleTask (name id driveId lastSyncTime : String) : SyncTask :=
  { Name := name, Id := id, DriveId := driveId
    LocalFolderPath := "/home/user/game", PanFolderPath := "/sync_drive/game"
    Mode := "sync", LastSyncTime := lastSyncTime
    panUser := 0, syncDbFolderPath := "", panClient := 0
    fileUploadParallel := 0, fileDownloadParallel := 0
    fileUploadBlockSize := 0, fileDownloadBlockSize := 0
    useInternalUrl := false, maxDownloadRate := 0, maxUploadRate := 0 }

/-- A JSON string literal: the quotation mark and the backslash are escaped. -/
def sampleQuote (s : String) : String :=
  "\"" ++ String.join (s.toList.map (fun c =>
    if c.toNat = 34 then "\\\"" else if c.toNat = 92 then "\\\\" else String.singleton c)) ++ "\""

/-- The JSON text of an entry of the task list, in the layout of the sample in
`parseConfigFile`: the persisted fields of a task, `null` for a `nil` entry. -/
def sampleEntryJson : Option SyncTask → String
  | none => "  null"
  | some t =>
    "  \x7b\n   \"name\": " ++ sampleQuote t.Name ++
    ",\n   \"id\": " ++ sampleQuote t.Id ++
    ",\n   \"driveId\": " ++ sampleQuote t.DriveId ++
    ",\n   \"localFolderPath\": " ++ sampleQuote t.LocalFolderPath ++
    ",\n   \"panFolderPath\": " ++ sampleQuote t.PanFolderPath ++
    ",\n   \"mode\": " ++ sampleQuote t.Mode ++
    ",\n   \"lastSyncTime\": " ++ sampleQuote t.LastSyncTime ++ "\n  \x7d"

/-- The JSON text of a document, indented as the sample in `parseConfigFile`. -/
def sampleObjectToJsonStr (c : SyncDriveConfig) : String :=
  "\x7b\n \"configVer\": " ++ sampleQuote c.ConfigVer ++ ",\n \"syncTaskList\": " ++
    (if c.SyncTaskList.isEmpty then "[]"
     else "[\n" ++ ",\n".intercalate (c.SyncTaskList.map sampleEntryJson) ++ "\n ]") ++
    "\n\x7d"

/-- The scenario of the spec: task "A" without id, task "B" with id "B-1". -/
def docAB : SyncDriveConfig :=
  ⟨"1.0", [some (sampleTask "A" "" "19519111" ""), some (sampleTask "B" "B-1" "19519111" "")]⟩

/-- The document `docAB` after a run of `Start` by the manager `sampleMgr`. -/
def docAB1 : SyncDriveConfig :=
  ⟨"1.0", [some (sampleTask "A" "u" "drive-7" ""), some (sampleTask "B" "B-1" "drive-7" "")]⟩

/-- Two tasks, neither with an id. -/
def docNoIds : SyncDriveConfig :=
  ⟨"1.0", [some (sampleTask "A" "" "19519111" ""), some (sampleTask "B" "" "19519111" "")]⟩

/-- The document `docNoIds` after a run of `Start` by the manager `sampleMgr`. -/
def docNoIds1 : SyncDriveConfig :=
  ⟨"1.0", [some (sampleTask "A" "u" "drive-7" ""), some (sampleTask "B" "uu" "drive-7" "")]⟩

/-- A document with another version tag. -/
def docV2 : SyncDriveConfig :=
  ⟨"2.0", [some (sampleTask "A" "A-1" "19519111" "")]⟩

/-- A document with a version tag and an empty task list. -/
def docEmpty : SyncDriveConfig :=
  ⟨"1.0", []⟩

/-- A task followed by a `null` entry. -/
def docNull : SyncDriveConfig :=
  ⟨"1.0", [some (sampleTask "A" "" "19519111" ""), none]⟩

/-- The documents the sample decoder knows. -/
def sampleDocs : List SyncDriveConfig :=
  [docAB, docAB1, docNoIds, docNoIds1, docV2, docEmpty, docNull]

/-- A table decoder: on the JSON text of a document of `sampleDocs` it yields that
document, as `json.Unmarshal` does on that text; a text outside the table is
reported as an error. -/
def sampleJsonUnmarshal (data : String) (r : SyncDriveConfig) : SyncDriveConfig × Option GoError :=
  match sampleDocs.find? (fun d => sampleObjectToJsonStr d == data) with
  | some d => (d, none)
  | none => (r, some (GoError.other "invalid character"))

/-- The `n`-th identifier is `n + 1` letters long. -/
def sampleUuidStr (n : Nat) : String :=
  String.mk (List.replicate (n + 1) 'u')

/-- Calls with an even number fail; a task is left as it is. -/
def sampleTaskStart (n : Nat) (t : SyncTask) : SyncTask × Option GoError :=
  (t, if n % 2 = 0 then some (GoError.other "task have starting") else none)

/-- Calls with an even number fail; a stopped task gets a last sync time. -/
def sampleTaskStop (n : Nat) (t : SyncTask) : SyncTask × Option GoError :=
  if n % 2 = 0 then (t, some (GoError.other "task have stopped"))
  else ({ t with LastSyncTime := "2022-06-12 10:00:00" }, none)

def sampleEnv : Env :=
  { pathJoin := fun dir name => dir ++ "/" ++ name
    jsonUnmarshal := sampleJsonUnmarshal
    objectToJsonStr := sampleObjectToJsonStr
    uuidStr := sampleUuidStr
    taskStart := sampleTaskStart
    taskStop := sampleTaskStop }

def sampleMgr : SyncTaskManager :=
  NewSyncTaskManager 1 "drive-7" 2 "/cfg" 2 3 1024 2048 false 0 0

/-- The document `d` as `sampleMgr` holds it after `Start`: runtime fields assigned. -/
def sampleHeld (d : SyncDriveConfig) : SyncDriveConfig :=
  ⟨d.ConfigVer, d.SyncTaskList.map (fun e => e.map (fun t => injected sampleMgr t t.Id))⟩

/-- A world whose config file holds `text`. -/
def worldWith (text : String) : World :=
  { files := fun p => if p = "/cfg/sync_drive_config.json" then some (FileNode.file text) else none
    writeErr := fun _ => none
    uuidCalls := 0
    taskCalls := 0
    trace := [] }

/-- A world without a config file. -/
def worldEmpty : World :=
  { files := fun _ => none
    writeErr := fun _ => none
    uuidCalls := 0
    taskCalls := 0
    trace := [] }

/-- A world whose config file holds `text` and cannot be opened for writing. -/
def worldReadOnly (text : String) : World :=
  { worldWith text with writeErr := fun _ => some (WriteFault.atOpen "permission denied") }

/-- A world whose config file holds `text` and where a write stops after 10 characters. -/
def worldDiskFull (text : String) : World :=
  { worldWith text with
    writeErr := fun _ => some (WriteFault.afterOpen "no space left on device" 10) }

/-! ## Lemmas about the model -/

theorem length_beq_zero_iff (s : String) : (s.length == 0) = true ↔ s = "" := by
  cases s with
  | mk l =>
    cases l with
    | nil => simp [String.length]
    | cons a l =>
      simp [String.length]
      intro h
      have h2 := congrArg String.data h
      simp at h2

theorem startBody_files (env : Env) (m : SyncTaskManager) (idx : Nat) (task : SyncTask)
    (w : World) : (startBody env m idx task w).2.files = w.files := by
  unfold startBody
  by_cases h : (task.Id.length == 0) = true <;> simp [h]

theorem startBody_writeErr (env : Env) (m : SyncTaskManager) (idx : Nat) (task : SyncTask)
    (w : World) : (startBody env m idx task w).2.writeErr = w.writeErr := by
  unfold startBody
  by_cases h : (task.Id.length == 0) = true <;> simp [h]

theorem startBody_taskCalls (env : Env) (m : SyncTaskManager) (idx : Nat) (task : SyncTask)
    (w : World) : (startBody env m idx task w).2.taskCalls = w.taskCalls + 1 := by
  unfold startBody
  by_cases h : (task.Id.length == 0) = true <;> simp [h]

theorem startBody_uuidCalls_le (env : Env) (m : SyncTaskManager) (idx : Nat) (task : SyncTask)
    (w : World) : w.uuidCalls ≤ (startBody env m idx task w).2.uuidCalls := by
  unfold startBody
  by_cases h : (task.Id.length == 0) = true <;> simp [h]

theorem startBody_desc (env : Env) (m : SyncTaskManager) (idx : Nat) (task : SyncTask)
    (w : World) : ∃ t, handedOver m task t ∧
      (startBody env m idx task w).1 = (env.taskStart w.taskCalls t).1 ∧
      (startBody env m idx task w).2.trace = w.trace ++ [Event.taskStart idx t] := by
  unfold startBody handedOver
  by_cases h : (task.Id.length == 0) = true
  · have he : task.Id = "" := (length_beq_zero_iff task.Id).1 h
    simp only [h, if_true]
    exact ⟨injected m task (env.uuidStr w.uuidCalls),
      ⟨_, rfl, fun hc => absurd he hc⟩, rfl, rfl⟩
  · have h2 : (task.Id.length == 0) = false := by simpa using h
    simp only [h2, Bool.false_eq_true, if_false]
    exact ⟨injected m task task.Id, ⟨_, rfl, fun _ => rfl⟩, rfl, rfl⟩

theorem startRecords_files (env : Env) (m : SyncTaskManager) (ts : List SyncTask) :
    ∀ (idx : Nat) (w : World), (startRecords env m idx ts w).2.files = w.files := by
  induction ts with
  | nil => intro idx w; rfl
  | cons t rest ih =>
    intro idx w
    simp only [startRecords]
    rw [ih, startBody_files]

theorem startRecords_writeErr (env : Env) (m : SyncTaskManager) (ts : List SyncTask) :
    ∀ (idx : Nat) (w : World), (startRecords env m idx ts w).2.writeErr = w.writeErr := by
  induction ts with
  | nil => intro idx w; rfl
  | cons t rest ih =>
    intro idx w
    simp only [startRecords]
    rw [ih, startBody_writeErr]

theorem startRecords_length (env : Env) (m : SyncTaskManager) (ts : List SyncTask) :
    ∀ (idx : Nat) (w : World), (startRecords env m idx ts w).1.length = ts.length := by
  induction ts with
  | nil => intro idx w; rfl
  | cons t rest ih =>
    intro idx w
    simp only [startRecords, List.length_cons]
    rw [ih]

theorem startRecords_desc (env : Env) (m : SyncTaskManager) (ts : List SyncTask) :
    ∀ (idx : Nat) (w : World), ∃ started : List SyncTask,
      List.Forall₂ (handedOver m) ts started ∧
      (startRecords env m idx ts w).1 =
        List.zipWith (fun n t => (env.taskStart n t).1)
          (List.range' w.taskCalls ts.length) started ∧
      (startRecords env m idx ts w).2.trace =
        w.trace ++ List.zipWith Event.taskStart (List.range' idx ts.length) started := by
  induction ts with
  | nil => intro idx w; exact ⟨[], List.Forall₂.nil, by simp [startRecords], by simp [startRecords]⟩
  | cons t rest ih =>
    intro idx w
    obtain ⟨t1, h1, hres1, htr1⟩ := startBody_desc env m idx t w
    obtain ⟨started, h2, hres2, htr2⟩ := ih (idx + 1) (startBody env m idx t w).2
    refine ⟨t1 :: started, List.Forall₂.cons h1 h2, ?_, ?_⟩
    · simp only [startRecords, List.length_cons, List.range'_succ, List.zipWith_cons_cons]
      rw [hres2, hres1, startBody_taskCalls]
    · simp only [startRecords, List.length_cons, List.range'_succ, List.zipWith_cons_cons]
      rw [htr2, htr1]
      simp

theorem startLoop_map_some (env : Env) (m : SyncTaskManager) (ts : List SyncTask) :
    ∀ (idx : Nat) (w : World),
      startLoop env m idx (ts.map some) w =
        (true, (startRecords env m idx ts w).1.map some, (startRecords env m idx ts w).2) := by
  induction ts with
  | nil => intro idx w; rfl
  | cons t rest ih =>
    intro idx w
    simp only [List.map_cons, startLoop, startRecords]
    rw [ih]

theorem startLoop_complete (env : Env) (m : SyncTaskManager) (es : List (Option SyncTask)) :
    ∀ (idx : Nat) (w : World), (startLoop env m idx es w).1 = true →
      ∃ ts : List SyncTask, es = ts.map some := by
  induction es with
  | nil => intro idx w _; exact ⟨[], rfl⟩
  | cons e rest ih =>
    intro idx w h
    cases e with
    | none => simp [startLoop] at h
    | some t =>
      simp only [startLoop] at h
      obtain ⟨ts, hts⟩ := ih (idx + 1) (startBody env m idx t w).2 h
      exact ⟨t :: ts, by rw [hts]; rfl⟩

theorem parseConfigFile_ok_intro (env : Env) (m : SyncTaskManager) (w : World) (data : String)
    (cfg : SyncDriveConfig)
    (hfile : w.files (ConfigFilePath env m) = some (FileNode.file data))
    (hlen : 0 < data.length)
    (hjson : env.jsonUnmarshal data defaultConfig = (cfg, none)) :
    parseConfigFile env m w =
      (none, { m with syncDriveConfig := some cfg },
       { w with trace := w.trace ++ [Event.readFile (ConfigFilePath env m)] }) := by
  unfold parseConfigFile
  unfold defaultConfig at hjson
  simp [pathExists, readFile, hfile, hlen, hjson]

theorem parseConfigFile_missing (env : Env) (m : SyncTaskManager) (w : World)
    (hfile : w.files (ConfigFilePath env m) = none) :
    parseConfigFile env m w =
      (some (GoError.errorf ("备份配置文件不存在：" ++ ConfigFilePath env m)),
       { m with syncDriveConfig := some defaultConfig }, w) := by
  have hp : ∀ c, ConfigFilePath env { m with syncDriveConfig := c } = ConfigFilePath env m :=
    fun _ => rfl
  unfold parseConfigFile
  simp [pathExists, hfile, defaultConfig, hp]

theorem parseConfigFile_zero_bytes (env : Env) (m : SyncTaskManager) (w : World) (data : String)
    (hfile : w.files (ConfigFilePath env m) = some (FileNode.file data))
    (hlen : data.length = 0) :
    parseConfigFile env m w =
      (none, { m with syncDriveConfig := some defaultConfig },
       { w with trace := w.trace ++ [Event.readFile (ConfigFilePath env m)] }) := by
  unfold parseConfigFile
  simp [pathExists, readFile, hfile, hlen, defaultConfig]

theorem parseConfigFile_ok_inv (env : Env) (m m1 : SyncTaskManager) (w w1 : World)
    (hload : parseConfigFile env m w = (none, m1, w1)) :
    m1 = { m with syncDriveConfig := m1.syncDriveConfig } ∧
    w1 = { w with trace := w.trace ++ [Event.readFile (ConfigFilePath env m)] } := by
  unfold parseConfigFile at hload
  by_cases hex : (pathExists w (ConfigFilePath env m) != true) = true
  · simp [hex] at hload
  · simp only [hex] at hload
    cases hf : w.files (ConfigFilePath env m) with
    | none => simp [readFile, hf] at hload
    | some node =>
      cases node with
      | unreadable e => simp [readFile, hf] at hload
      | file data =>
        by_cases hlen : data.length > 0
        · cases hj : env.jsonUnmarshal data ⟨"1.0", []⟩ with
          | mk r1 oe =>
            cases oe with
            | some err2 => simp [readFile, hf, hlen, hj] at hload
            | none =>
              simp [readFile, hf, hlen, hj] at hload
              obtain ⟨h1, h2⟩ := hload
              subst h1; subst h2
              exact ⟨rfl, rfl⟩
        · simp [readFile, hf, hlen] at hload
          obtain ⟨h1, h2⟩ := hload
          subst h1; subst h2
          exact ⟨rfl, rfl⟩

theorem parseConfigFile_world (env : Env) (m : SyncTaskManager) (w : World) :
    (parseConfigFile env m w).2.2 = w ∨
    (parseConfigFile env m w).2.2 =
      { w with trace := w.trace ++ [Event.readFile (ConfigFilePath env m)] } := by
  unfold parseConfigFile
  by_cases hex : (pathExists w (ConfigFilePath env m) != true) = true
  · left
    simp [hex]
  · right
    simp only [hex]
    cases hf : w.files (ConfigFilePath env m) with
    | none => simp [readFile, hf]
    | some node =>
      cases node with
      | unreadable e => simp [readFile, hf]
      | file data =>
        by_cases hlen : data.length > 0
        · cases hj : env.jsonUnmarshal data ⟨"1.0", []⟩ with
          | mk r1 oe =>
            cases oe with
            | some err2 => simp [readFile, hf, hlen, hj]
            | none => simp [readFile, hf, hlen, hj]
        · simp [readFile, hf, hlen]

theorem Start_returned_false_world (env : Env) (m : SyncTaskManager) (w : World)
    (err : Option GoError) (hfail : (Start env m w).1 = Outcome.ret false err) :
    (Start env m w).2.2 = (parseConfigFile env m w).2.2 := by
  unfold Start at hfail ⊢
  rcases hp : parseConfigFile env m w with ⟨oe, m1, w1⟩
  rw [hp] at hfail
  cases oe with
  | some er => rfl
  | none =>
    cases hc : m1.syncDriveConfig with
    | none => simp [hc]
    | some cfg =>
      by_cases hl : (cfg.SyncTaskList.length == 0) = true
      · simp [hc, hl]
      · cases hr : (startLoop env m1 0 cfg.SyncTaskList w1).1 <;> simp [hc, hl, hr] at hfail

theorem writeFile_trace (x : World) (q d : String) :
    (writeFile x q d).2.trace = x.trace ++ [Event.writeFile q d] := by
  unfold writeFile
  cases x.writeErr q with
  | none => rfl
  | some f => cases f <;> rfl

theorem writeFile_files_of_ok (x : World) (q d : String) (h : x.writeErr q = none) :
    (writeFile x q d).2.files = setFile x.files q (FileNode.file d) := by
  unfold writeFile
  simp [h]

theorem writeFile_err_of_fault (x : World) (q d : String) (f : WriteFault)
    (h : x.writeErr q = some f) : (writeFile x q d).1 ≠ none := by
  unfold writeFile
  cases f <;> simp [h]

theorem writeFile_uuidCalls (x : World) (q d : String) :
    (writeFile x q d).2.uuidCalls = x.uuidCalls := by
  unfold writeFile
  cases x.writeErr q with
  | none => rfl
  | some f => cases f <;> rfl

theorem Start_of_records (env : Env) (m m1 : SyncTaskManager) (w w1 : World)
    (cfg : SyncDriveConfig) (ts : List SyncTask)
    (hload : parseConfigFile env m w = (none, m1, w1))
    (hcfg : m1.syncDriveConfig = some cfg)
    (hts : cfg.SyncTaskList = ts.map some) (hN : ts ≠ []) :
    Start env m w =
      (Outcome.ret true none,
       { m1 with syncDriveConfig := some ⟨cfg.ConfigVer, (startRecords env m1 0 ts w1).1.map some⟩ },
       (writeFile (startRecords env m1 0 ts w1).2 (ConfigFilePath env m1)
          (env.objectToJsonStr ⟨cfg.ConfigVer, (startRecords env m1 0 ts w1).1.map some⟩)).2) := by
  unfold Start
  rw [hload]
  simp only [hcfg]
  have hlen : (cfg.SyncTaskList.length == 0) = false := by
    rw [hts]
    cases ts with
    | nil => exact absurd rfl hN
    | cons a l => simp
  simp only [hlen, Bool.false_eq_true, if_false]
  rw [hts, startLoop_map_some]
  simp [ConfigFilePath]

theorem Start_ret_true_records (env : Env) (m m1 : SyncTaskManager) (w w1 : World)
    (cfg : SyncDriveConfig)
    (hload : parseConfigFile env m w = (none, m1, w1))
    (hcfg : m1.syncDriveConfig = some cfg)
    (hret : (Start env m w).1 = Outcome.ret true none) :
    ∃ ts : List SyncTask, cfg.SyncTaskList = ts.map some ∧ ts ≠ [] := by
  unfold Start at hret
  rw [hload] at hret
  simp only [hcfg] at hret
  by_cases hl : (cfg.SyncTaskList.length == 0) = true
  · simp [hl] at hret
  · cases hr : (startLoop env m1 0 cfg.SyncTaskList w1).1 with
    | false => simp [hl, hr] at hret
    | true =>
      obtain ⟨ts, hts⟩ := startLoop_complete env m1 cfg.SyncTaskList 0 w1 hr
      refine ⟨ts, hts, fun hnil => hl ?_⟩
      rw [hts, hnil]
      rfl

theorem injected_of_parse (env : Env) (m m1 : SyncTaskManager) (w w1 : World)
    (hload : parseConfigFile env m w = (none, m1, w1)) :
    handedOver m1 = handedOver m ∧ ConfigFilePath env m1 = ConfigFilePath env m ∧
      m1.DriveId = m.DriveId := by
  obtain ⟨hm1, _⟩ := parseConfigFile_ok_inv env m m1 w w1 hload
  refine ⟨?_, ?_, ?_⟩
  · rw [hm1]; rfl
  · rw [hm1]; rfl
  · rw [hm1]

/-- The full description of a `Start` over a loaded document whose entries are the
task records `ts`. -/
theorem Start_described (env : Env) (m m1 : SyncTaskManager) (w w1 : World)
    (cfg : SyncDriveConfig) (ts : List SyncTask)
    (hload : parseConfigFile env m w = (none, m1, w1))
    (hcfg : m1.syncDriveConfig = some cfg)
    (hts : cfg.SyncTaskList = ts.map some) (hN : ts ≠ []) :
    ∃ (started : List SyncTask) (cfg2 : SyncDriveConfig),
      List.Forall₂ (handedOver m) ts started ∧
      (Start env m w).1 = Outcome.ret true none ∧
      (Start env m w).2.1.syncDriveConfig = some cfg2 ∧
      cfg2.ConfigVer = cfg.ConfigVer ∧
      cfg2.SyncTaskList =
        (List.zipWith (fun n t => (env.taskStart n t).1)
          (List.range' w.taskCalls ts.length) started).map some ∧
      (Start env m w).2.2.trace =
        w.trace ++ [Event.readFile (ConfigFilePath env m)] ++
          List.zipWith Event.taskStart (List.range ts.length) started ++
          [Event.writeFile (ConfigFilePath env m) (env.objectToJsonStr cfg2)] ∧
      (w.writeErr (ConfigFilePath env m) = none →
        (Start env m w).2.2.files =
          setFile w.files (ConfigFilePath env m) (FileNode.file (env.objectToJsonStr cfg2))) := by
  obtain ⟨_, hw1⟩ := parseConfigFile_ok_inv env m m1 w w1 hload
  obtain ⟨hho, hp, _⟩ := injected_of_parse env m m1 w w1 hload
  obtain ⟨started, hfa, hres, htr⟩ := startRecords_desc env m1 ts 0 w1
  have hS := Start_of_records env m m1 w w1 cfg ts hload hcfg hts hN
  have htc : w1.taskCalls = w.taskCalls := by rw [hw1]
  refine ⟨started, ⟨cfg.ConfigVer, (startRecords env m1 0 ts w1).1.map some⟩, ?_, ?_, ?_, rfl,
    ?_, ?_, ?_⟩
  · rw [← hho]; exact hfa
  · rw [hS]
  · rw [hS]
  · simp only []
    rw [hres, htc]
  · rw [hS]
    simp only [writeFile_trace, htr, hp, List.range_eq_range']
    rw [hw1]
  · intro hwr
    rw [hS]
    have hwe : (startRecords env m1 0 ts w1).2.writeErr (ConfigFilePath env m1) = none := by
      rw [startRecords_writeErr, hp, hw1]
      exact hwr
    simp only []
    rw [writeFile_files_of_ok _ _ _ hwe, startRecords_files, hp, hw1]

theorem stopBody_eq (env : Env) (idx : Nat) (entry : Option SyncTask) (w : World) :
    stopBody env idx entry w =
      (entry.map (fun t => (env.taskStop w.taskCalls t).1),
       { w with taskCalls := w.taskCalls + 1, trace := w.trace ++ [Event.taskStop idx entry] }) := by
  cases entry <;> rfl

theorem stopLoop_files (env : Env) (es : List (Option SyncTask)) :
    ∀ (idx : Nat) (w : World), (stopLoop env idx es w).2.files = w.files ∧
      (stopLoop env idx es w).2.writeErr = w.writeErr := by
  induction es with
  | nil => intro idx w; exact ⟨rfl, rfl⟩
  | cons e rest ih =>
    intro idx w
    simp only [stopLoop, stopBody_eq]
    exact ih (idx + 1) _

theorem stopLoop_desc (env : Env) (es : List (Option SyncTask)) :
    ∀ (idx : Nat) (w : World),
      (stopLoop env idx es w).1 =
        List.zipWith (fun n e => e.map (fun t => (env.taskStop n t).1))
          (List.range' w.taskCalls es.length) es ∧
      (stopLoop env idx es w).2.trace =
        w.trace ++ List.zipWith Event.taskStop (List.range' idx es.length) es := by
  induction es with
  | nil => intro idx w; simp [stopLoop]
  | cons e rest ih =>
    intro idx w
    obtain ⟨h1, h2⟩ := ih (idx + 1) (stopBody env idx e w).2
    simp only [stopLoop, List.length_cons, List.range'_succ, List.zipWith_cons_cons]
    rw [h1, h2]
    simp [stopBody_eq]

theorem Stop_of_held (env : Env) (m : SyncTaskManager) (w : World) (cfg : SyncDriveConfig)
    (hcfg : m.syncDriveConfig = some cfg) :
    Stop env m w =
      (Outcome.ret true none,
       { m with syncDriveConfig := some ⟨cfg.ConfigVer, (stopLoop env 0 cfg.SyncTaskList w).1⟩ },
       (writeFile (stopLoop env 0 cfg.SyncTaskList w).2 (ConfigFilePath env m)
          (env.objectToJsonStr ⟨cfg.ConfigVer, (stopLoop env 0 cfg.SyncTaskList w).1⟩)).2) := by
  unfold Stop
  simp [hcfg, ConfigFilePath]

/-- The full description of a `Stop` by a manager that holds a document. -/
theorem Stop_described (env : Env) (m : SyncTaskManager) (w : World) (cfg : SyncDriveConfig)
    (hcfg : m.syncDriveConfig = some cfg) :
    ∃ cfg2 : SyncDriveConfig,
      (Stop env m w).1 = Outcome.ret true none ∧
      (Stop env m w).2.1.syncDriveConfig = some cfg2 ∧
      cfg2.ConfigVer = cfg.ConfigVer ∧
      cfg2.SyncTaskList =
        List.zipWith (fun n e => e.map (fun t => (env.taskStop n t).1))
          (List.range' w.taskCalls cfg.SyncTaskList.length) cfg.SyncTaskList ∧
      (Stop env m w).2.2.trace =
        w.trace ++
          List.zipWith Event.taskStop (List.range cfg.SyncTaskList.length) cfg.SyncTaskList ++
          [Event.writeFile (ConfigFilePath env m) (env.objectToJsonStr cfg2)] ∧
      (w.writeErr (ConfigFilePath env m) = none →
        (Stop env m w).2.2.files =
          setFile w.files (ConfigFilePath env m) (FileNode.file (env.objectToJsonStr cfg2))) := by
  have hS := Stop_of_held env m w cfg hcfg
  obtain ⟨hres, htr⟩ := stopLoop_desc env cfg.SyncTaskList 0 w
  obtain ⟨hf, hwe⟩ := stopLoop_files env cfg.SyncTaskList 0 w
  refine ⟨⟨cfg.ConfigVer, (stopLoop env 0 cfg.SyncTaskList w).1⟩, ?_, ?_, rfl, hres, ?_, ?_⟩
  · rw [hS]
  · rw [hS]
  · rw [hS]
    simp only [writeFile_trace, htr, List.range_eq_range']
  · intro hwr
    rw [hS]
    simp only []
    rw [writeFile_files_of_ok _ _ _ (by rw [hwe]; exact hwr), hf]

theorem startBody_id (env : Env) (m : SyncTaskManager) (idx : Nat) (task : SyncTask)
    (w : World) (hkeep : keepsId env.taskStart) (hne : ∀ n, env.uuidStr n ≠ "") :
    idAssigned env w.uuidCalls task (startBody env m idx task w).1 := by
  unfold startBody idAssigned
  by_cases h : (task.Id.length == 0) = true
  · have he : task.Id = "" := (length_beq_zero_iff task.Id).1 h
    simp only [h, if_true, hkeep _ _]
    exact ⟨fun hc => absurd he hc, fun _ => ⟨hne _, w.uuidCalls, le_refl _, rfl⟩⟩
  · have he : task.Id ≠ "" := fun hc => h ((length_beq_zero_iff task.Id).2 hc)
    have h2 : (task.Id.length == 0) = false := by simpa using h
    simp only [h2, Bool.false_eq_true, if_false, hkeep _ _]
    exact ⟨fun _ => trivial, fun hc => absurd hc he⟩

theorem idAssigned_mono (env : Env) (c d : Nat) (hcd : c ≤ d) (t0 t : SyncTask)
    (h : idAssigned env d t0 t) : idAssigned env c t0 t := by
  refine ⟨h.1, fun he => ?_⟩
  obtain ⟨h1, n, hn, h2⟩ := h.2 he
  exact ⟨h1, n, le_trans hcd hn, h2⟩

theorem startRecords_ids (env : Env) (m : SyncTaskManager) (hkeep : keepsId env.taskStart)
    (hne : ∀ n, env.uuidStr n ≠ "") (ts : List SyncTask) :
    ∀ (idx : Nat) (w : World),
      List.Forall₂ (idAssigned env w.uuidCalls) ts (startRecords env m idx ts w).1 := by
  induction ts with
  | nil => intro idx w; exact List.Forall₂.nil
  | cons t rest ih =>
    intro idx w
    simp only [startRecords]
    refine List.Forall₂.cons (startBody_id env m idx t w hkeep hne) ?_
    exact List.Forall₂.imp
      (fun a b hab => idAssigned_mono env _ _ (startBody_uuidCalls_le env m idx t w) a b hab)
      (ih (idx + 1) (startBody env m idx t w).2)

theorem startRecords_ids_all_empty (env : Env) (m : SyncTaskManager)
    (hkeep : keepsId env.taskStart) (ts : List SyncTask) :
    ∀ (idx : Nat) (w : World), (∀ t ∈ ts, t.Id = "") →
      (startRecords env m idx ts w).1.map (fun t => t.Id) =
        (List.range' w.uuidCalls ts.length).map env.uuidStr := by
  induction ts with
  | nil => intro idx w _; rfl
  | cons t rest ih =>
    intro idx w hall
    have he : t.Id = "" := hall t (List.mem_cons_self _ _)
    have h : (t.Id.length == 0) = true := (length_beq_zero_iff t.Id).2 he
    have hrest : ∀ x ∈ rest, x.Id = "" := fun x hx => hall x (List.mem_cons_of_mem _ hx)
    have hu : (startBody env m idx t w).2.uuidCalls = w.uuidCalls + 1 := by
      unfold startBody; simp [h]
    have hi : (startBody env m idx t w).1.Id = env.uuidStr w.uuidCalls := by
      unfold startBody; simp [h, hkeep _ _]
    have := ih (idx + 1) (startBody env m idx t w).2 hrest
    simp only [startRecords, List.map_cons, List.length_cons, List.range'_succ, this, hu, hi]

theorem startRecords_ids_none_empty (env : Env) (m : SyncTaskManager)
    (hkeep : keepsId env.taskStart) (ts : List SyncTask) :
    ∀ (idx : Nat) (w : World), (∀ t ∈ ts, t.Id ≠ "") →
      (startRecords env m idx ts w).1.map (fun t => t.Id) = ts.map (fun t => t.Id) ∧
      (startRecords env m idx ts w).2.uuidCalls = w.uuidCalls := by
  induction ts with
  | nil => intro idx w _; exact ⟨rfl, rfl⟩
  | cons t rest ih =>
    intro idx w hall
    have he : t.Id ≠ "" := hall t (List.mem_cons_self _ _)
    have h : (t.Id.length == 0) = false := by
      cases hb : (t.Id.length == 0) with
      | false => rfl
      | true => exact absurd ((length_beq_zero_iff t.Id).1 hb) he
    have hrest : ∀ x ∈ rest, x.Id ≠ "" := fun x hx => hall x (List.mem_cons_of_mem _ hx)
    have hu : (startBody env m idx t w).2.uuidCalls = w.uuidCalls := by
      unfold startBody; simp [h]
    have hi : (startBody env m idx t w).1.Id = t.Id := by
      unfold startBody; simp [h, hkeep _ _]
    obtain ⟨h1, h2⟩ := ih (idx + 1) (startBody env m idx t w).2 hrest
    simp only [startRecords, List.map_cons, h1, hi, h2, hu, and_self]

theorem startRecords_fields (env : Env) (m : SyncTaskManager) (hkeep : keepsFields env.taskStart)
    (ts : List SyncTask) :
    ∀ (idx : Nat) (w : World),
      List.Forall₂ (fun t0 t => passedThrough t0 t ∧ t.DriveId = m.DriveId) ts
        (startRecords env m idx ts w).1 := by
  induction ts with
  | nil => intro idx w; exact List.Forall₂.nil
  | cons t rest ih =>
    intro idx w
    simp only [startRecords]
    refine List.Forall₂.cons ?_ (ih (idx + 1) (startBody env m idx t w).2)
    obtain ⟨t1, ⟨id, hid, _⟩, hres, _⟩ := startBody_desc env m idx t w
    obtain ⟨k1, k2, k3, k4, k5, k6⟩ := hkeep w.taskCalls t1
    rw [hres]
    unfold passedThrough
    rw [k1, k2, k3, k4, k5, k6, hid]
    exact ⟨⟨rfl, rfl, rfl, rfl, rfl⟩, rfl⟩

theorem taskIds_map_some (ts : List SyncTask) :
    taskIds (ts.map some) = (ts.map (fun t => t.Id)).map some := by
  simp [taskIds, List.map_map, Function.comp_def]

theorem entries_of_taskIds (es : List (Option SyncTask)) :
    ∀ ids : List String, taskIds es = ids.map some →
      ∃ ts : List SyncTask, es = ts.map some ∧ ts.map (fun t => t.Id) = ids := by
  induction es with
  | nil =>
    intro ids h
    cases ids with
    | nil => exact ⟨[], rfl, rfl⟩
    | cons a l => simp [taskIds] at h
  | cons e rest ih =>
    intro ids h
    cases ids with
    | nil => simp [taskIds] at h
    | cons a l =>
      simp only [taskIds, List.map_cons, List.cons.injEq] at h
      obtain ⟨h1, h2⟩ := h
      obtain ⟨ts, hts, hids⟩ := ih l h2
      cases e with
      | none => simp at h1
      | some t =>
        simp at h1
        exact ⟨t :: ts, by rw [hts]; rfl, by simp [hids, h1]⟩

theorem sampleUuidStr_ne_empty (n : Nat) : sampleUuidStr n ≠ "" := by
  intro h
  have h2 := congrArg String.length h
  simp [sampleUuidStr, String.length] at h2

theorem sampleUuidStr_injective : Function.Injective sampleUuidStr := by
  intro a b h
  have h2 := congrArg String.length h
  simp [sampleUuidStr, String.length] at h2
  exact h2

/-! ## The claims -/

set_option maxRecDepth 1000000

/-- C1 (the code's behaviour at a `null` entry): the config file lists task "A" and
then `null`.  `parseConfigFile` accepts the document; `Start` starts task "A", then
dereferences the `nil` entry and panics: it returns nothing and writes nothing, the
file is as it was. -/
theorem Start_panics_at_null_entry :
    (parseConfigFile sampleEnv sampleMgr (worldWith (sampleObjectToJsonStr docNull))).1 = none ∧
    (parseConfigFile sampleEnv sampleMgr
      (worldWith (sampleObjectToJsonStr docNull))).2.1.syncDriveConfig = some docNull ∧
    (Start sampleEnv sampleMgr (worldWith (sampleObjectToJsonStr docNull))).1 =
      Outcome.panicked "nil pointer dereference" ∧
    (Start sampleEnv sampleMgr (worldWith (sampleObjectToJsonStr docNull))).2.2.trace =
      [Event.readFile "/cfg/sync_drive_config.json",
       Event.taskStart 0 (injected sampleMgr (sampleTask "A" "" "19519111" "") "u")] ∧
    (Start sampleEnv sampleMgr (worldWith (sampleObjectToJsonStr docNull))).2.2.files
        "/cfg/sync_drive_config.json" =
      some (FileNode.file (sampleObjectToJsonStr docNull)) := by
  decide

/-- C2: a `Start` that returns `(false, err)` invokes no task's `Start` and performs no
write: the file system is left as it was and the trace grows by at most the read of
the config file.  With no file at the config path `Start` returns `(false, err)`,
`err` being the "missing file" error; with a file whose task list is empty (a
zero-byte file, which is read as the default document, or a text that decodes to a
document without tasks) it returns `(false, ErrSyncTaskListEmpty)`. -/
theorem Start_load_failure_has_no_effect (env : Env) (m : SyncTaskManager) (w : World) :
    (∀ err, (Start env m w).1 = Outcome.ret false err →
      (Start env m w).2.2.files = w.files ∧
      startedIdxs (Start env m w).2.2.trace = startedIdxs w.trace ∧
      ((Start env m w).2.2.trace = w.trace ∨
        (Start env m w).2.2.trace = w.trace ++ [Event.readFile (ConfigFilePath env m)])) ∧
    (w.files (ConfigFilePath env m) = none →
      (Start env m w).1 = Outcome.ret false
        (some (GoError.errorf ("备份配置文件不存在：" ++ ConfigFilePath env m))) ∧
      (Start env m w).2.2.files = w.files ∧
      (Start env m w).2.2.trace = w.trace) ∧
    (∀ data, w.files (ConfigFilePath env m) = some (FileNode.file data) →
      (data.length = 0 ∨
        ∃ cfg, env.jsonUnmarshal data defaultConfig = (cfg, none) ∧ cfg.SyncTaskList = []) →
      (Start env m w).1 = Outcome.ret false (some GoError.ErrSyncTaskListEmpty) ∧
      (Start env m w).2.2.files = w.files ∧
      (Start env m w).2.2.trace = w.trace ++ [Event.readFile (ConfigFilePath env m)]) := by
  refine ⟨fun err hfail => ?_, fun hmiss => ?_, fun data hfile hdata => ?_⟩
  · rw [Start_returned_false_world env m w err hfail]
    rcases parseConfigFile_world env m w with h | h
    · rw [h]
      exact ⟨rfl, rfl, Or.inl rfl⟩
    · rw [h]
      exact ⟨rfl, by simp [startedIdxs, List.filterMap_append], Or.inr rfl⟩
  · have hS : Start env m w =
        (Outcome.ret false (some (GoError.errorf ("备份配置文件不存在：" ++ ConfigFilePath env m))),
         { m with syncDriveConfig := some defaultConfig }, w) := by
      unfold Start
      rw [parseConfigFile_missing env m w hmiss]
    rw [hS]
    exact ⟨rfl, rfl, rfl⟩
  · have hS : Start env m w =
        (Outcome.ret false (some GoError.ErrSyncTaskListEmpty),
         (parseConfigFile env m w).2.1,
         { w with trace := w.trace ++ [Event.readFile (ConfigFilePath env m)] }) := by
      rcases hdata with hz | ⟨cfg, hj, hempty⟩
      · unfold Start
        rw [parseConfigFile_zero_bytes env m w data hfile hz]
        simp [defaultConfig]
      · by_cases hlen : 0 < data.length
        · unfold Start
          rw [parseConfigFile_ok_intro env m w data cfg hfile hlen hj]
          simp [hempty]
        · unfold Start
          rw [parseConfigFile_zero_bytes env m w data hfile (by omega)]
          simp [defaultConfig]
    rw [hS]
    exact ⟨rfl, rfl, rfl⟩

theorem Start_load_failure_has_no_effect_witness :
    ((worldWith "").files (ConfigFilePath sampleEnv sampleMgr) = some (FileNode.file "") ∧
      ("".length = 0 ∨
        ∃ cfg, sampleEnv.jsonUnmarshal "" defaultConfig = (cfg, none) ∧
          cfg.SyncTaskList = [])) ∧
    (Start sampleEnv sampleMgr (worldWith "")).1 =
      Outcome.ret false (some GoError.ErrSyncTaskListEmpty) ∧
    (Start sampleEnv sampleMgr (worldWith "")).2.2.files = (worldWith "").files ∧
    (Start sampleEnv sampleMgr (worldWith "")).2.2.trace =
      (worldWith "").trace ++ [Event.readFile (ConfigFilePath sampleEnv sampleMgr)] :=
  ⟨⟨by decide, Or.inl (by decide)⟩,
    (Start_load_failure_has_no_effect sampleEnv sampleMgr (worldWith "")).2.2 ""
      (by decide) (Or.inl (by decide))⟩

/-- C3: for a loaded document, when the id generator returns
non-empty strings (and the tasks' own `Start` methods leave the `id` alone), after
`Start` has returned `(true, nil)` every task whose id was non-empty in the loaded
document has the same id, every task whose id was empty has a non-empty id that a call
of the generator made during this `Start` returned, and the document handed to the
write of the config file, which is the content of the file when the write succeeds,
is the one that carries these ids. -/
theorem Start_assigns_missing_ids (env : Env) (m m1 : SyncTaskManager) (w w1 : World)
    (cfg : SyncDriveConfig)
    (hload : parseConfigFile env m w = (none, m1, w1))
    (hcfg : m1.syncDriveConfig = some cfg)
    (hret : (Start env m w).1 = Outcome.ret true none)
    (hkeep : keepsId env.taskStart)
    (hgen : ∀ n, env.uuidStr n ≠ "") :
    ∃ (ts ts2 : List SyncTask) (cfg2 : SyncDriveConfig),
      cfg.SyncTaskList = ts.map some ∧
      (Start env m w).2.1.syncDriveConfig = some cfg2 ∧
      cfg2.SyncTaskList = ts2.map some ∧
      List.Forall₂ (idAssigned env w.uuidCalls) ts ts2 ∧
      (Start env m w).2.2.trace.getLast? =
        some (Event.writeFile (ConfigFilePath env m) (env.objectToJsonStr cfg2)) ∧
      (w.writeErr (ConfigFilePath env m) = none →
        (Start env m w).2.2.files (ConfigFilePath env m) =
          some (FileNode.file (env.objectToJsonStr cfg2))) := by
  obtain ⟨ts, hts, hne⟩ := Start_ret_true_records env m m1 w w1 cfg hload hcfg hret
  obtain ⟨_, hw1⟩ := parseConfigFile_ok_inv env m m1 w w1 hload
  obtain ⟨_, hp, _⟩ := injected_of_parse env m m1 w w1 hload
  have hu : w1.uuidCalls = w.uuidCalls := by rw [hw1]
  have hS := Start_of_records env m m1 w w1 cfg ts hload hcfg hts hne
  refine ⟨ts, (startRecords env m1 0 ts w1).1,
    ⟨cfg.ConfigVer, (startRecords env m1 0 ts w1).1.map some⟩, hts, ?_, rfl, ?_, ?_, ?_⟩
  · rw [hS]
  · rw [← hu]
    exact startRecords_ids env m1 hkeep hgen ts 0 w1
  · rw [hS]
    simp only [writeFile_trace, hp, List.getLast?_append, List.getLast?_singleton]
    rfl
  · intro hwr
    rw [hS]
    have hwe : (startRecords env m1 0 ts w1).2.writeErr (ConfigFilePath env m1) = none := by
      rw [startRecords_writeErr, hp, hw1]
      exact hwr
    simp only []
    rw [writeFile_files_of_ok _ _ _ hwe, hp]
    simp [setFile]

theorem Start_assigns_missing_ids_witness :
    (parseConfigFile sampleEnv sampleMgr (worldWith (sampleObjectToJsonStr docAB)) =
        (none, { sampleMgr with syncDriveConfig := some docAB },
         { worldWith (sampleObjectToJsonStr docAB) with
           trace := [Event.readFile "/cfg/sync_drive_config.json"] }) ∧
      (Start sampleEnv sampleMgr (worldWith (sampleObjectToJsonStr docAB))).1 =
        Outcome.ret true none ∧
      keepsId sampleEnv.taskStart ∧
      ∀ n, sampleEnv.uuidStr n ≠ "") ∧
    (∃ (ts ts2 : List SyncTask) (cfg2 : SyncDriveConfig),
      docAB.SyncTaskList = ts.map some ∧
      (Start sampleEnv sampleMgr
        (worldWith (sampleObjectToJsonStr docAB))).2.1.syncDriveConfig = some cfg2 ∧
      cfg2.SyncTaskList = ts2.map some ∧
      List.Forall₂ (idAssigned sampleEnv (worldWith (sampleObjectToJsonStr docAB)).uuidCalls)
        ts ts2 ∧
      (Start sampleEnv sampleMgr (worldWith (sampleObjectToJsonStr docAB))).2.2.trace.getLast? =
        some (Event.writeFile (ConfigFilePath sampleEnv sampleMgr)
          (sampleEnv.objectToJsonStr cfg2)) ∧
      ((worldWith (sampleObjectToJsonStr docAB)).writeErr (ConfigFilePath sampleEnv sampleMgr) =
          none →
        (Start sampleEnv sampleMgr (worldWith (sampleObjectToJsonStr docAB))).2.2.files
            (ConfigFilePath sampleEnv sampleMgr) =
          some (FileNode.file (sampleEnv.objectToJsonStr cfg2)))) ∧
    (Start sampleEnv sampleMgr (worldWith (sampleObjectToJsonStr docAB))).2.1.syncDriveConfig =
      some (sampleHeld docAB1) ∧
    taskIds (sampleHeld docAB1).SyncTaskList = [some "u", some "B-1"] ∧
    (Start sampleEnv sampleMgr (worldWith (sampleObjectToJsonStr docAB))).2.2.files
        "/cfg/sync_drive_config.json" =
      some (FileNode.file (sampleObjectToJsonStr docAB1)) :=
  have hload : parseConfigFile sampleEnv sampleMgr (worldWith (sampleObjectToJsonStr docAB)) =
        (none, { sampleMgr with syncDriveConfig := some docAB },
         { worldWith (sampleObjectToJsonStr docAB) with
           trace := [Event.readFile "/cfg/sync_drive_config.json"] }) :=
    parseConfigFile_ok_intro sampleEnv sampleMgr _ (sampleObjectToJsonStr docAB) docAB
      (by decide) (by decide) (by decide)
  ⟨⟨hload, by decide, fun _ _ => rfl, sampleUuidStr_ne_empty⟩,
    Start_assigns_missing_ids sampleEnv sampleMgr _ _ _ docAB hload rfl (by decide)
      (fun _ _ => rfl) sampleUuidStr_ne_empty,
    by decide, by decide, by decide⟩

/-- C5: for a manager that holds a document and whatever the tasks' `Stop` methods do
or return, `Stop` invokes the method once per entry, in document order, on the held
entries, reads no file, then writes the held document, whose entries are the records
as the `Stop` methods left them, to the config file path, and returns `(true, nil)`;
when the write succeeds the config file holds that document and no other path has
changed. -/
theorem Stop_invokes_each_task_in_order (env : Env) (m : SyncTaskManager) (w : World)
    (cfg : SyncDriveConfig) (hcfg : m.syncDriveConfig = some cfg) :
    ∃ cfg2 : SyncDriveConfig,
      (Stop env m w).1 = Outcome.ret true none ∧
      (Stop env m w).2.1.syncDriveConfig = some cfg2 ∧
      cfg2.ConfigVer = cfg.ConfigVer ∧
      cfg2.SyncTaskList =
        List.zipWith (fun n e => e.map (fun t => (env.taskStop n t).1))
          (List.range' w.taskCalls cfg.SyncTaskList.length) cfg.SyncTaskList ∧
      (Stop env m w).2.2.trace =
        w.trace ++
          List.zipWith Event.taskStop (List.range cfg.SyncTaskList.length) cfg.SyncTaskList ++
          [Event.writeFile (ConfigFilePath env m) (env.objectToJsonStr cfg2)] ∧
      (w.writeErr (ConfigFilePath env m) = none →
        (Stop env m w).2.2.files =
          setFile w.files (ConfigFilePath env m) (FileNode.file (env.objectToJsonStr cfg2))) :=
  Stop_described env m w cfg hcfg

theorem Stop_invokes_each_task_in_order_witness :
    ({ sampleMgr with syncDriveConfig := some (sampleHeld docAB1) } :
        SyncTaskManager).syncDriveConfig = some (sampleHeld docAB1) ∧
    (∃ cfg2 : SyncDriveConfig,
      (Stop sampleEnv { sampleMgr with syncDriveConfig := some (sampleHeld docAB1) }
        (worldWith (sampleObjectToJsonStr docAB1))).1 = Outcome.ret true none ∧
      (Stop sampleEnv { sampleMgr with syncDriveConfig := some (sampleHeld docAB1) }
        (worldWith (sampleObjectToJsonStr docAB1))).2.1.syncDriveConfig = some cfg2 ∧
      cfg2.ConfigVer = (sampleHeld docAB1).ConfigVer ∧
      cfg2.SyncTaskList =
        List.zipWith (fun n e => e.map (fun t => (sampleEnv.taskStop n t).1))
          (List.range' (worldWith (sampleObjectToJsonStr docAB1)).taskCalls
            (sampleHeld docAB1).SyncTaskList.length) (sampleHeld docAB1).SyncTaskList ∧
      (Stop sampleEnv { sampleMgr with syncDriveConfig := some (sampleHeld docAB1) }
        (worldWith (sampleObjectToJsonStr docAB1))).2.2.trace =
        (worldWith (sampleObjectToJsonStr docAB1)).trace ++
          List.zipWith Event.taskStop (List.range (sampleHeld docAB1).SyncTaskList.length)
            (sampleHeld docAB1).SyncTaskList ++
          [Event.writeFile
            (ConfigFilePath sampleEnv { sampleMgr with syncDriveConfig := some (sampleHeld docAB1) })
            (sampleEnv.objectToJsonStr cfg2)] ∧
      ((worldWith (sampleObjectToJsonStr docAB1)).writeErr
          (ConfigFilePath sampleEnv
            { sampleMgr with syncDriveConfig := some (sampleHeld docAB1) }) = none →
        (Stop sampleEnv { sampleMgr with syncDriveConfig := some (sampleHeld docAB1) }
          (worldWith (sampleObjectToJsonStr docAB1))).2.2.files =
          setFile (worldWith (sampleObjectToJsonStr docAB1)).files
            (ConfigFilePath sampleEnv
              { sampleMgr with syncDriveConfig := some (sampleHeld docAB1) })
            (FileNode.file (sampleEnv.objectToJsonStr cfg2)))) ∧
    (Stop sampleEnv { sampleMgr with syncDriveConfig := some (sampleHeld docAB1) }
      (worldWith (sampleObjectToJsonStr docAB1))).2.1.syncDriveConfig.map
        (fun c => c.SyncTaskList.map (fun e => e.map (fun t => t.LastSyncTime))) =
      some [some "", some "2022-06-12 10:00:00"] :=
  ⟨rfl,
    Stop_invokes_each_task_in_order sampleEnv _ (worldWith (sampleObjectToJsonStr docAB1))
      (sampleHeld docAB1) rfl,
    by decide⟩

/-- C7 (the code's behaviour): `Stop` on a manager just built by `NewSyncTaskManager`
dereferences the `nil` document pointer: the call panics, invokes no task method and
writes nothing. -/
theorem Stop_on_fresh_manager_panics (env : Env) (user : Nat) (driveId : String)
    (panClient : Nat) (folder : String) (dp up : Int) (dbs ubs : Int) (internal : Bool)
    (dr ur : Int) (w : World) :
    Stop env (NewSyncTaskManager user driveId panClient folder dp up dbs ubs internal dr ur) w =
      (Outcome.panicked "nil pointer dereference",
       NewSyncTaskManager user driveId panClient folder dp up dbs ubs internal dr ur, w) := by
  rfl

/-- C10: a `Start` that fails because the config file is missing leaves the manager
holding the default document (`ConfigVer` "1.0", no tasks), whatever it held before;
the `Stop` that follows invokes no task's `Stop`, writes the empty-task-list document
to the config file path, and returns `(true, nil)`; when the write succeeds the config
file, missing before, holds the empty-task-list document and no other path has
changed. -/
theorem failed_Start_resets_held_document (env : Env) (m : SyncTaskManager) (w : World)
    (hmiss : w.files (ConfigFilePath env m) = none) :
    (∃ err, (Start env m w).1 = Outcome.ret false (some err)) ∧
    (Start env m w).2.1.syncDriveConfig = some ⟨"1.0", []⟩ ∧
    (Stop env (Start env m w).2.1 (Start env m w).2.2).1 = Outcome.ret true none ∧
    (Stop env (Start env m w).2.1 (Start env m w).2.2).2.1.syncDriveConfig = some ⟨"1.0", []⟩ ∧
    (Stop env (Start env m w).2.1 (Start env m w).2.2).2.2.trace =
      w.trace ++ [Event.writeFile (ConfigFilePath env m) (env.objectToJsonStr ⟨"1.0", []⟩)] ∧
    (w.writeErr (ConfigFilePath env m) = none →
      (Stop env (Start env m w).2.1 (Start env m w).2.2).2.2.files =
        setFile w.files (ConfigFilePath env m)
          (FileNode.file (env.objectToJsonStr ⟨"1.0", []⟩))) := by
  have hS : Start env m w =
      (Outcome.ret false (some (GoError.errorf ("备份配置文件不存在：" ++ ConfigFilePath env m))),
       { m with syncDriveConfig := some defaultConfig }, w) := by
    unfold Start
    rw [parseConfigFile_missing env m w hmiss]
  rw [hS]
  refine ⟨⟨_, rfl⟩, rfl, ?_, ?_, ?_, ?_⟩
  · rw [Stop_of_held env _ w defaultConfig rfl]
  · rw [Stop_of_held env _ w defaultConfig rfl]
    rfl
  · rw [Stop_of_held env _ w defaultConfig rfl]
    simp only [writeFile_trace]
    rfl
  · intro hwr
    rw [Stop_of_held env _ w defaultConfig rfl]
    exact writeFile_files_of_ok _ _ _ hwr

theorem failed_Start_resets_held_document_witness :
    worldEmpty.files
        (ConfigFilePath sampleEnv { sampleMgr with syncDriveConfig := some (sampleHeld docAB1) }) =
        none ∧
    (Start sampleEnv { sampleMgr with syncDriveConfig := some (sampleHeld docAB1) }
      worldEmpty).2.1.syncDriveConfig = some ⟨"1.0", []⟩ ∧
    (Stop sampleEnv
        (Start sampleEnv { sampleMgr with syncDriveConfig := some (sampleHeld docAB1) }
          worldEmpty).2.1
        (Start sampleEnv { sampleMgr with syncDriveConfig := some (sampleHeld docAB1) }
          worldEmpty).2.2).2.2.trace =
      [Event.writeFile "/cfg/sync_drive_config.json"
        "\x7b\n \"configVer\": \"1.0\",\n \"syncTaskList\": []\n\x7d"] ∧
    (Stop sampleEnv
        (Start sampleEnv { sampleMgr with syncDriveConfig := some (sampleHeld docAB1) }
          worldEmpty).2.1
        (Start sampleEnv { sampleMgr with syncDriveConfig := some (sampleHeld docAB1) }
          worldEmpty).2.2).2.2.files "/cfg/sync_drive_config.json" =
      some (FileNode.file "\x7b\n \"configVer\": \"1.0\",\n \"syncTaskList\": []\n\x7d") :=
  ⟨rfl,
   (failed_Start_resets_held_document sampleEnv
      { sampleMgr with syncDriveConfig := some (sampleHeld docAB1) } worldEmpty rfl).2.1,
   (failed_Start_resets_held_document sampleEnv
      { sampleMgr with syncDriveConfig := some (sampleHeld docAB1) } worldEmpty rfl).2.2.2.2.1,
   by decide⟩

/-- C4: for a loaded document of `N ≥ 1` task definitions, all without id, when the id
generator returns non-empty, pairwise distinct strings, the tasks' own `Start` methods
leave the `id` alone, the write of the config file succeeds and the codec gives back
the ids of the document that was written: after `Start` every task has a non-empty id
and the ids are pairwise distinct; re-loading the written file yields the same ids;
and a second `Start` over that file returns `(true, nil)`, calls the generator not
once and leaves every id as it was. -/
theorem Start_ids_distinct_and_stable (env : Env) (m m1 : SyncTaskManager) (w w1 : World)
    (cfg : SyncDriveConfig) (ts : List SyncTask)
    (hload : parseConfigFile env m w = (none, m1, w1))
    (hcfg : m1.syncDriveConfig = some cfg)
    (hts : cfg.SyncTaskList = ts.map some)
    (hN : 1 ≤ ts.length)
    (hall : ∀ t ∈ ts, t.Id = "")
    (hkeep : keepsId env.taskStart)
    (hgen : ∀ n, env.uuidStr n ≠ "")
    (hinj : Function.Injective env.uuidStr)
    (hwr : w.writeErr (ConfigFilePath env m) = none)
    (hcodec : ∀ c1, (Start env m w).2.1.syncDriveConfig = some c1 →
      0 < (env.objectToJsonStr c1).length ∧
      (env.jsonUnmarshal (env.objectToJsonStr c1) defaultConfig).2 = none ∧
      taskIds (env.jsonUnmarshal (env.objectToJsonStr c1) defaultConfig).1.SyncTaskList =
        taskIds c1.SyncTaskList) :
    ∃ (c1 : SyncDriveConfig) (ids : List String),
      (Start env m w).1 = Outcome.ret true none ∧
      (Start env m w).2.1.syncDriveConfig = some c1 ∧
      taskIds c1.SyncTaskList = ids.map some ∧
      ids.length = ts.length ∧
      (∀ id ∈ ids, id ≠ "") ∧
      ids.Nodup ∧
      (∃ (mR : SyncTaskManager) (wR : World) (cR : SyncDriveConfig),
        parseConfigFile env (Start env m w).2.1 (Start env m w).2.2 = (none, mR, wR) ∧
        mR.syncDriveConfig = some cR ∧
        taskIds cR.SyncTaskList = ids.map some) ∧
      ∃ c3 : SyncDriveConfig,
        (Start env (Start env m w).2.1 (Start env m w).2.2).1 = Outcome.ret true none ∧
        (Start env (Start env m w).2.1 (Start env m w).2.2).2.1.syncDriveConfig = some c3 ∧
        taskIds c3.SyncTaskList = ids.map some ∧
        (Start env (Start env m w).2.1 (Start env m w).2.2).2.2.uuidCalls =
          (Start env m w).2.2.uuidCalls := by
  have hne : ts ≠ [] := by
    intro h
    rw [h] at hN
    exact absurd hN (by decide)
  obtain ⟨hm1, hw1⟩ := parseConfigFile_ok_inv env m m1 w w1 hload
  obtain ⟨_, hp, _⟩ := injected_of_parse env m m1 w w1 hload
  have hS := Start_of_records env m m1 w w1 cfg ts hload hcfg hts hne
  -- the first run
  have hids : (startRecords env m1 0 ts w1).1.map (fun t => t.Id) =
      (List.range' w1.uuidCalls ts.length).map env.uuidStr :=
    startRecords_ids_all_empty env m1 hkeep ts 0 w1 hall
  have hheld : (Start env m w).2.1.syncDriveConfig =
      some ⟨cfg.ConfigVer, (startRecords env m1 0 ts w1).1.map some⟩ := by
    rw [hS]
  have hnonempty : ∀ id ∈ (startRecords env m1 0 ts w1).1.map (fun t => t.Id), id ≠ "" := by
    intro id hid
    rw [hids] at hid
    obtain ⟨n, _, hn⟩ := List.mem_map.1 hid
    rw [← hn]
    exact hgen n
  have hfile1 : (Start env m w).2.2.files (ConfigFilePath env m) =
      some (FileNode.file
        (env.objectToJsonStr ⟨cfg.ConfigVer, (startRecords env m1 0 ts w1).1.map some⟩)) := by
    rw [hS]
    have hwe : (startRecords env m1 0 ts w1).2.writeErr (ConfigFilePath env m1) = none := by
      rw [startRecords_writeErr, hp, hw1]
      exact hwr
    simp only []
    rw [writeFile_files_of_ok _ _ _ hwe, hp]
    simp [setFile]
  -- the file that the first run wrote decodes to a document with the same ids
  obtain ⟨hlen, hjerr, hjids⟩ := hcodec _ hheld
  simp only [] at hjids
  rw [taskIds_map_some] at hjids
  obtain ⟨ts2, hts2, hids2⟩ := entries_of_taskIds _ _ hjids
  have hpath : ConfigFilePath env (Start env m w).2.1 = ConfigFilePath env m := by
    rw [hS, hm1]; rfl
  have hjson : env.jsonUnmarshal
      (env.objectToJsonStr ⟨cfg.ConfigVer, (startRecords env m1 0 ts w1).1.map some⟩)
      defaultConfig =
      ((env.jsonUnmarshal
        (env.objectToJsonStr ⟨cfg.ConfigVer, (startRecords env m1 0 ts w1).1.map some⟩)
        defaultConfig).1, none) := by
    rw [← hjerr]
  have hload2 := parseConfigFile_ok_intro env (Start env m w).2.1 (Start env m w).2.2 _ _
    (by rw [hpath]; exact hfile1) hlen hjson
  have hne2 : ts2 ≠ [] := by
    intro h
    have h2 := congrArg List.length hids2
    rw [h] at h2
    simp [startRecords_length] at h2
    exact hne (List.length_eq_zero.1 h2.symm)
  have hall2 : ∀ t ∈ ts2, t.Id ≠ "" := by
    intro t ht
    apply hnonempty
    rw [← hids2]
    exact List.mem_map.2 ⟨t, ht, rfl⟩
  have hS2 := Start_of_records env _ _ _ _ _ ts2 hload2 rfl hts2 hne2
  obtain ⟨hk1, hk2⟩ := startRecords_ids_none_empty env
    { (Start env m w).2.1 with syncDriveConfig := some (env.jsonUnmarshal
        (env.objectToJsonStr ⟨cfg.ConfigVer, (startRecords env m1 0 ts w1).1.map some⟩)
        defaultConfig).1 }
    hkeep ts2 0
    { (Start env m w).2.2 with trace := (Start env m w).2.2.trace ++
        [Event.readFile (ConfigFilePath env (Start env m w).2.1)] } hall2
  refine ⟨_, (startRecords env m1 0 ts w1).1.map (fun t => t.Id), by rw [hS], hheld,
    taskIds_map_some _, by simp [startRecords_length], hnonempty, ?_,
    ⟨_, _, _, hload2, rfl, hjids⟩, ⟨_, by rw [hS2], by rw [hS2], ?_, ?_⟩⟩
  · rw [hids]
    exact List.Nodup.map hinj (List.nodup_range' _ _)
  · simp only []
    rw [taskIds_map_some, hk1, hids2]
  · rw [hS2]
    simp only [writeFile_uuidCalls]
    exact hk2

theorem Start_ids_distinct_and_stable_witness :
    (parseConfigFile sampleEnv sampleMgr (worldWith (sampleObjectToJsonStr docNoIds)) =
        (none, { sampleMgr with syncDriveConfig := some docNoIds },
         { worldWith (sampleObjectToJsonStr docNoIds) with
           trace := [Event.readFile "/cfg/sync_drive_config.json"] }) ∧
      docNoIds.SyncTaskList =
        [sampleTask "A" "" "19519111" "", sampleTask "B" "" "19519111" ""].map some ∧
      1 ≤ [sampleTask "A" "" "19519111" "", sampleTask "B" "" "19519111" ""].length ∧
      (∀ t ∈ [sampleTask "A" "" "19519111" "", sampleTask "B" "" "19519111" ""], t.Id = "") ∧
      keepsId sampleEnv.taskStart ∧
      (∀ n, sampleEnv.uuidStr n ≠ "") ∧
      Function.Injective sampleEnv.uuidStr ∧
      (worldWith (sampleObjectToJsonStr docNoIds)).writeErr
        (ConfigFilePath sampleEnv sampleMgr) = none ∧
      ∀ c1, (Start sampleEnv sampleMgr
          (worldWith (sampleObjectToJsonStr docNoIds))).2.1.syncDriveConfig = some c1 →
        0 < (sampleEnv.objectToJsonStr c1).length ∧
        (sampleEnv.jsonUnmarshal (sampleEnv.objectToJsonStr c1) defaultConfig).2 = none ∧
        taskIds (sampleEnv.jsonUnmarshal (sampleEnv.objectToJsonStr c1)
          defaultConfig).1.SyncTaskList = taskIds c1.SyncTaskList) ∧
    (∃ (c1 : SyncDriveConfig) (ids : List String),
      (Start sampleEnv sampleMgr (worldWith (sampleObjectToJsonStr docNoIds))).2.1.syncDriveConfig =
        some c1 ∧
      taskIds c1.SyncTaskList = ids.map some ∧
      ids.Nodup ∧
      ∃ c3 : SyncDriveConfig,
        (Start sampleEnv
          (Start sampleEnv sampleMgr (worldWith (sampleObjectToJsonStr docNoIds))).2.1
          (Start sampleEnv sampleMgr
            (worldWith (sampleObjectToJsonStr docNoIds))).2.2).2.1.syncDriveConfig = some c3 ∧
        taskIds c3.SyncTaskList = ids.map some) ∧
    taskIds (sampleHeld docNoIds1).SyncTaskList = [some "u", some "uu"] := by
  have hload : parseConfigFile sampleEnv sampleMgr (worldWith (sampleObjectToJsonStr docNoIds)) =
        (none, { sampleMgr with syncDriveConfig := some docNoIds },
         { worldWith (sampleObjectToJsonStr docNoIds) with
           trace := [Event.readFile "/cfg/sync_drive_config.json"] }) :=
    parseConfigFile_ok_intro sampleEnv sampleMgr _ (sampleObjectToJsonStr docNoIds) docNoIds
      (by decide) (by decide) (by decide)
  have hheld : (Start sampleEnv sampleMgr
      (worldWith (sampleObjectToJsonStr docNoIds))).2.1.syncDriveConfig =
      some (sampleHeld docNoIds1) := by decide
  have hcodec : ∀ c1, (Start sampleEnv sampleMgr
        (worldWith (sampleObjectToJsonStr docNoIds))).2.1.syncDriveConfig = some c1 →
      0 < (sampleEnv.objectToJsonStr c1).length ∧
      (sampleEnv.jsonUnmarshal (sampleEnv.objectToJsonStr c1) defaultConfig).2 = none ∧
      taskIds (sampleEnv.jsonUnmarshal (sampleEnv.objectToJsonStr c1)
        defaultConfig).1.SyncTaskList = taskIds c1.SyncTaskList := by
    intro c1 h
    rw [hheld] at h
    cases h
    decide
  have hall : ∀ t ∈ [sampleTask "A" "" "19519111" "", sampleTask "B" "" "19519111" ""],
      t.Id = "" := by decide
  have h := Start_ids_distinct_and_stable sampleEnv sampleMgr _ _ _ docNoIds
    [sampleTask "A" "" "19519111" "", sampleTask "B" "" "19519111" ""] hload rfl rfl
    (by decide) hall (fun _ _ => rfl) sampleUuidStr_ne_empty sampleUuidStr_injective
    (by decide) hcodec
  refine ⟨⟨hload, rfl, by decide, hall, fun _ _ => rfl, sampleUuidStr_ne_empty,
    sampleUuidStr_injective, by decide, hcodec⟩, ?_, by decide⟩
  obtain ⟨c1, ids, _, h2, h3, _, _, h6, _, c3, _, h8, h9, _⟩ := h
  exact ⟨c1, ids, h2, h3, h6, c3, h8, h9⟩

/-- C6 (counterexample): the config file cannot be written (the open fails, or the
disk fills up during the write), and yet `Start` and `Stop` return `(true, nil)`: no
error reaches the caller. -/
theorem write_failure_is_surfaced_counterexample :
    (worldReadOnly (sampleObjectToJsonStr docAB)).writeErr
        (ConfigFilePath sampleEnv sampleMgr) = some (WriteFault.atOpen "permission denied") ∧
    (Start sampleEnv sampleMgr (worldReadOnly (sampleObjectToJsonStr docAB))).1 =
      Outcome.ret true none ∧
    (Start sampleEnv sampleMgr (worldDiskFull (sampleObjectToJsonStr docAB))).1 =
      Outcome.ret true none ∧
    (Stop sampleEnv { sampleMgr with syncDriveConfig := some (sampleHeld docAB1) }
      (worldReadOnly (sampleObjectToJsonStr docAB1))).1 = Outcome.ret true none ∧
    ¬ (∃ (ok : Bool) (e : GoError),
        (Start sampleEnv sampleMgr (worldReadOnly (sampleObjectToJsonStr docAB))).1 =
          Outcome.ret ok (some e)) := by
  have h1 : (Start sampleEnv sampleMgr (worldReadOnly (sampleObjectToJsonStr docAB))).1 =
      Outcome.ret true none := by decide
  refine ⟨by decide, h1, by decide, by decide, ?_⟩
  rintro ⟨ok, e, h⟩
  rw [h1] at h
  cases h

/-- C6 (amended): when the write of the document at the end of `Start` or `Stop` fails,
the failure is dropped: the write reports an error and the call still returns
`(true, nil)`.  The task methods have been invoked as usual and the manager holds the
document that was to be written, its entries as the task methods left them. -/
theorem write_failure_is_dropped (env : Env) (m m1 : SyncTaskManager) (w w1 : World)
    (cfg : SyncDriveConfig) (ts : List SyncTask) (fault : WriteFault)
    (hload : parseConfigFile env m w = (none, m1, w1))
    (hcfg : m1.syncDriveConfig = some cfg)
    (hts : cfg.SyncTaskList = ts.map some)
    (hN : 1 ≤ ts.length)
    (hwr : w.writeErr (ConfigFilePath env m) = some fault)
    (mS : SyncTaskManager) (wS : World) (cfgS : SyncDriveConfig) (faultS : WriteFault)
    (hheld : mS.syncDriveConfig = some cfgS)
    (hwrS : wS.writeErr (ConfigFilePath env mS) = some faultS) :
    (∃ (started : List SyncTask) (cfg2 : SyncDriveConfig),
      List.Forall₂ (handedOver m) ts started ∧
      (Start env m w).1 = Outcome.ret true none ∧
      (Start env m w).2.1.syncDriveConfig = some cfg2 ∧
      cfg2.SyncTaskList =
        (List.zipWith (fun n t => (env.taskStart n t).1)
          (List.range' w.taskCalls ts.length) started).map some ∧
      (Start env m w).2.2.trace =
        w.trace ++ [Event.readFile (ConfigFilePath env m)] ++
          List.zipWith Event.taskStart (List.range ts.length) started ++
          [Event.writeFile (ConfigFilePath env m) (env.objectToJsonStr cfg2)] ∧
      ∃ x : World,
        (writeFile x (ConfigFilePath env m) (env.objectToJsonStr cfg2)).1 ≠ none ∧
        (Start env m w).2.2 =
          (writeFile x (ConfigFilePath env m) (env.objectToJsonStr cfg2)).2) ∧
    (∃ cfg2 : SyncDriveConfig,
      (Stop env mS wS).1 = Outcome.ret true none ∧
      (Stop env mS wS).2.1.syncDriveConfig = some cfg2 ∧
      cfg2.SyncTaskList =
        List.zipWith (fun n e => e.map (fun t => (env.taskStop n t).1))
          (List.range' wS.taskCalls cfgS.SyncTaskList.length) cfgS.SyncTaskList ∧
      (Stop env mS wS).2.2.trace =
        wS.trace ++
          List.zipWith Event.taskStop (List.range cfgS.SyncTaskList.length) cfgS.SyncTaskList ++
          [Event.writeFile (ConfigFilePath env mS) (env.objectToJsonStr cfg2)] ∧
      ∃ x : World,
        (writeFile x (ConfigFilePath env mS) (env.objectToJsonStr cfg2)).1 ≠ none ∧
        (Stop env mS wS).2.2 =
          (writeFile x (ConfigFilePath env mS) (env.objectToJsonStr cfg2)).2) := by
  have hne : ts ≠ [] := by
    intro h
    rw [h] at hN
    exact absurd hN (by decide)
  constructor
  · obtain ⟨_, hw1⟩ := parseConfigFile_ok_inv env m m1 w w1 hload
    obtain ⟨_, hp, _⟩ := injected_of_parse env m m1 w w1 hload
    obtain ⟨started, cfg2, h1, h2, h3, _, h5, h6, _⟩ :=
      Start_described env m m1 w w1 cfg ts hload hcfg hts hne
    have hS := Start_of_records env m m1 w w1 cfg ts hload hcfg hts hne
    have hc2 : cfg2 = ⟨cfg.ConfigVer, (startRecords env m1 0 ts w1).1.map some⟩ := by
      rw [hS] at h3
      exact (Option.some.inj h3).symm
    refine ⟨started, cfg2, h1, h2, h3, h5, h6, (startRecords env m1 0 ts w1).2, ?_, ?_⟩
    · apply writeFile_err_of_fault _ _ _ fault
      rw [startRecords_writeErr, hw1]
      exact hwr
    · rw [hS, hc2, hp]
  · obtain ⟨cfg2, h1, h2, _, h4, h5, _⟩ := Stop_described env mS wS cfgS hheld
    have hS := Stop_of_held env mS wS cfgS hheld
    have hc2 : cfg2 = ⟨cfgS.ConfigVer, (stopLoop env 0 cfgS.SyncTaskList wS).1⟩ := by
      rw [hS] at h2
      exact (Option.some.inj h2).symm
    refine ⟨cfg2, h1, h2, h4, h5, (stopLoop env 0 cfgS.SyncTaskList wS).2, ?_, ?_⟩
    · apply writeFile_err_of_fault _ _ _ faultS
      rw [(stopLoop_files env cfgS.SyncTaskList 0 wS).2]
      exact hwrS
    · rw [hS, hc2]

theorem write_failure_is_dropped_witness :
    (parseConfigFile sampleEnv sampleMgr (worldDiskFull (sampleObjectToJsonStr docAB)) =
        (none, { sampleMgr with syncDriveConfig := some docAB },
         { worldDiskFull (sampleObjectToJsonStr docAB) with
           trace := [Event.readFile "/cfg/sync_drive_config.json"] }) ∧
      docAB.SyncTaskList =
        [sampleTask "A" "" "19519111" "", sampleTask "B" "B-1" "19519111" ""].map some ∧
      (worldDiskFull (sampleObjectToJsonStr docAB)).writeErr
        (ConfigFilePath sampleEnv sampleMgr) =
          some (WriteFault.afterOpen "no space left on device" 10) ∧
      (worldReadOnly (sampleObjectToJsonStr docAB1)).writeErr
        (ConfigFilePath sampleEnv
          { sampleMgr with syncDriveConfig := some (sampleHeld docAB1) }) =
          some (WriteFault.atOpen "permission denied")) ∧
    (Start sampleEnv sampleMgr (worldDiskFull (sampleObjectToJsonStr docAB))).1 =
      Outcome.ret true none ∧
    (Stop sampleEnv { sampleMgr with syncDriveConfig := some (sampleHeld docAB1) }
      (worldReadOnly (sampleObjectToJsonStr docAB1))).1 = Outcome.ret true none :=
  have hload : parseConfigFile sampleEnv sampleMgr
      (worldDiskFull (sampleObjectToJsonStr docAB)) =
        (none, { sampleMgr with syncDriveConfig := some docAB },
         { worldDiskFull (sampleObjectToJsonStr docAB) with
           trace := [Event.readFile "/cfg/sync_drive_config.json"] }) :=
    parseConfigFile_ok_intro sampleEnv sampleMgr _ (sampleObjectToJsonStr docAB) docAB
      (by decide) (by decide) (by decide)
  have h := write_failure_is_dropped sampleEnv sampleMgr _ _ _ docAB
    [sampleTask "A" "" "19519111" "", sampleTask "B" "B-1" "19519111" ""]
    (WriteFault.afterOpen "no space left on device" 10)
    hload rfl rfl (by decide) (by decide)
    { sampleMgr with syncDriveConfig := some (sampleHeld docAB1) }
    (worldReadOnly (sampleObjectToJsonStr docAB1)) (sampleHeld docAB1)
    (WriteFault.atOpen "permission denied") rfl (by decide)
  ⟨⟨hload, rfl, by decide, by decide⟩,
    h.1.elim (fun _ h2 => h2.elim (fun _ h3 => h3.2.1)),
    h.2.elim (fun _ h2 => h2.1)⟩

/-- C8 (counterexample): the file gives both tasks the drive id "19519111"; the manager
was built with "drive-7"; after `Start` both held tasks, and the file written back,
carry "drive-7". -/
theorem driveId_pass_through_counterexample :
    (parseConfigFile sampleEnv sampleMgr
        (worldWith (sampleObjectToJsonStr docAB))).2.1.syncDriveConfig.map
      (fun c => c.SyncTaskList.map (fun e => e.map (fun t => t.DriveId))) =
        some [some "19519111", some "19519111"] ∧
    (Start sampleEnv sampleMgr (worldWith (sampleObjectToJsonStr docAB))).1 =
      Outcome.ret true none ∧
    (Start sampleEnv sampleMgr
        (worldWith (sampleObjectToJsonStr docAB))).2.1.syncDriveConfig.map
      (fun c => c.SyncTaskList.map (fun e => e.map (fun t => t.DriveId))) =
        some [some "drive-7", some "drive-7"] ∧
    (Start sampleEnv sampleMgr (worldWith (sampleObjectToJsonStr docAB))).2.2.files
        "/cfg/sync_drive_config.json" =
      some (FileNode.file (sampleObjectToJsonStr docAB1)) ∧
    sampleObjectToJsonStr docAB1 ≠ sampleObjectToJsonStr docAB := by
  decide

/-- C8 (amended): after `Start` has returned `(true, nil)` over a loaded document, the
name, localFolderPath, panFolderPath, mode and lastSyncTime of every task, in the held
document and in the document handed to the write (the content of the file when the
write succeeds), are the loaded ones (the tasks' own `Start` methods leaving the
persisted fields alone); the driveId of every task is the drive identifier the manager
was constructed with. -/
theorem Start_passes_fields_through_and_sets_driveId (env : Env) (m m1 : SyncTaskManager)
    (w w1 : World) (cfg : SyncDriveConfig)
    (hload : parseConfigFile env m w = (none, m1, w1))
    (hcfg : m1.syncDriveConfig = some cfg)
    (hret : (Start env m w).1 = Outcome.ret true none)
    (hkeep : keepsFields env.taskStart) :
    ∃ (ts ts2 : List SyncTask) (cfg2 : SyncDriveConfig),
      cfg.SyncTaskList = ts.map some ∧
      (Start env m w).2.1.syncDriveConfig = some cfg2 ∧
      cfg2.SyncTaskList = ts2.map some ∧
      List.Forall₂ (fun t0 t => passedThrough t0 t ∧ t.DriveId = m.DriveId) ts ts2 ∧
      (Start env m w).2.2.trace.getLast? =
        some (Event.writeFile (ConfigFilePath env m) (env.objectToJsonStr cfg2)) ∧
      (w.writeErr (ConfigFilePath env m) = none →
        (Start env m w).2.2.files (ConfigFilePath env m) =
          some (FileNode.file (env.objectToJsonStr cfg2))) := by
  obtain ⟨ts, hts, hne⟩ := Start_ret_true_records env m m1 w w1 cfg hload hcfg hret
  obtain ⟨_, hw1⟩ := parseConfigFile_ok_inv env m m1 w w1 hload
  obtain ⟨_, hp, hd⟩ := injected_of_parse env m m1 w w1 hload
  have hS := Start_of_records env m m1 w w1 cfg ts hload hcfg hts hne
  refine ⟨ts, (startRecords env m1 0 ts w1).1,
    ⟨cfg.ConfigVer, (startRecords env m1 0 ts w1).1.map some⟩, hts, ?_, rfl, ?_, ?_, ?_⟩
  · rw [hS]
  · rw [← hd]
    exact startRecords_fields env m1 hkeep ts 0 w1
  · rw [hS]
    simp only [writeFile_trace, hp, List.getLast?_append, List.getLast?_singleton]
    rfl
  · intro hwr
    rw [hS]
    have hwe : (startRecords env m1 0 ts w1).2.writeErr (ConfigFilePath env m1) = none := by
      rw [startRecords_writeErr, hp, hw1]
      exact hwr
    simp only []
    rw [writeFile_files_of_ok _ _ _ hwe, hp]
    simp [setFile]

theorem Start_passes_fields_through_and_sets_driveId_witness :
    (parseConfigFile sampleEnv sampleMgr (worldWith (sampleObjectToJsonStr docAB)) =
        (none, { sampleMgr with syncDriveConfig := some docAB },
         { worldWith (sampleObjectToJsonStr docAB) with
           trace := [Event.readFile "/cfg/sync_drive_config.json"] }) ∧
      (Start sampleEnv sampleMgr (worldWith (sampleObjectToJsonStr docAB))).1 =
        Outcome.ret true none ∧
      keepsFields sampleEnv.taskStart) ∧
    ∃ (ts ts2 : List SyncTask) (cfg2 : SyncDriveConfig),
      docAB.SyncTaskList = ts.map some ∧
      (Start sampleEnv sampleMgr
        (worldWith (sampleObjectToJsonStr docAB))).2.1.syncDriveConfig = some cfg2 ∧
      cfg2.SyncTaskList = ts2.map some ∧
      List.Forall₂ (fun t0 t => passedThrough t0 t ∧ t.DriveId = sampleMgr.DriveId) ts ts2 ∧
      (Start sampleEnv sampleMgr (worldWith (sampleObjectToJsonStr docAB))).2.2.trace.getLast? =
        some (Event.writeFile (ConfigFilePath sampleEnv sampleMgr)
          (sampleEnv.objectToJsonStr cfg2)) ∧
      ((worldWith (sampleObjectToJsonStr docAB)).writeErr (ConfigFilePath sampleEnv sampleMgr) =
          none →
        (Start sampleEnv sampleMgr (worldWith (sampleObjectToJsonStr docAB))).2.2.files
            (ConfigFilePath sampleEnv sampleMgr) =
          some (FileNode.file (sampleEnv.objectToJsonStr cfg2))) :=
  have hload : parseConfigFile sampleEnv sampleMgr (worldWith (sampleObjectToJsonStr docAB)) =
        (none, { sampleMgr with syncDriveConfig := some docAB },
         { worldWith (sampleObjectToJsonStr docAB) with
           trace := [Event.readFile "/cfg/sync_drive_config.json"] }) :=
    parseConfigFile_ok_intro sampleEnv sampleMgr _ (sampleObjectToJsonStr docAB) docAB
      (by decide) (by decide) (by decide)
  have hk : keepsFields sampleEnv.taskStart := fun _ _ => ⟨rfl, rfl, rfl, rfl, rfl, rfl⟩
  ⟨⟨hload, by decide, hk⟩,
    Start_passes_fields_through_and_sets_driveId sampleEnv sampleMgr _ _ _ docAB hload rfl
      (by decide) hk⟩

/-- C9 (counterexample): the config file says `"configVer": "2.0"` and lists one task;
`parseConfigFile` accepts it, and `Start` starts the task, writes the document back
with its "2.0", and returns `(true, nil)`. -/
theorem configVer_is_checked_counterexample :
    docV2.ConfigVer ≠ "1.0" ∧
    (parseConfigFile sampleEnv sampleMgr (worldWith (sampleObjectToJsonStr docV2))).1 = none ∧
    (parseConfigFile sampleEnv sampleMgr
      (worldWith (sampleObjectToJsonStr docV2))).2.1.syncDriveConfig = some docV2 ∧
    (Start sampleEnv sampleMgr (worldWith (sampleObjectToJsonStr docV2))).1 =
      Outcome.ret true none ∧
    startedIdxs (Start sampleEnv sampleMgr (worldWith (sampleObjectToJsonStr docV2))).2.2.trace =
      [0] ∧
    (Start sampleEnv sampleMgr (worldWith (sampleObjectToJsonStr docV2))).2.1.syncDriveConfig.map
      (fun c => c.ConfigVer) = some "2.0" := by
  decide

/-- C9 (amended): loading accepts every configVer value: for a config file whose text
decodes to a document with whatever `configVer` string and a list of `N ≥ 1` task
records, `parseConfigFile` accepts the document as decoded, and `Start` starts every
task in document order, keeps the `configVer` in the document it holds and writes, and
returns `(true, nil)`. -/
theorem Start_accepts_any_configVer (env : Env) (m : SyncTaskManager) (w : World)
    (data : String) (cfg : SyncDriveConfig) (ts : List SyncTask)
    (hfile : w.files (ConfigFilePath env m) = some (FileNode.file data))
    (hlen : 0 < data.length)
    (hjson : env.jsonUnmarshal data defaultConfig = (cfg, none))
    (hts : cfg.SyncTaskList = ts.map some)
    (hN : 1 ≤ ts.length) :
    (parseConfigFile env m w).1 = none ∧
    (parseConfigFile env m w).2.1.syncDriveConfig = some cfg ∧
    ∃ (started : List SyncTask) (cfg2 : SyncDriveConfig),
      List.Forall₂ (handedOver m) ts started ∧
      (Start env m w).1 = Outcome.ret true none ∧
      (Start env m w).2.1.syncDriveConfig = some cfg2 ∧
      cfg2.ConfigVer = cfg.ConfigVer ∧
      cfg2.SyncTaskList =
        (List.zipWith (fun n t => (env.taskStart n t).1)
          (List.range' w.taskCalls ts.length) started).map some ∧
      (Start env m w).2.2.trace =
        w.trace ++ [Event.readFile (ConfigFilePath env m)] ++
          List.zipWith Event.taskStart (List.range ts.length) started ++
          [Event.writeFile (ConfigFilePath env m) (env.objectToJsonStr cfg2)] ∧
      (w.writeErr (ConfigFilePath env m) = none →
        (Start env m w).2.2.files =
          setFile w.files (ConfigFilePath env m) (FileNode.file (env.objectToJsonStr cfg2))) := by
  have hne : ts ≠ [] := by
    intro h
    rw [h] at hN
    exact absurd hN (by decide)
  have hload := parseConfigFile_ok_intro env m w data cfg hfile hlen hjson
  refine ⟨?_, ?_, Start_described env m _ w _ cfg ts hload rfl hts hne⟩
  · rw [hload]
  · rw [hload]

theorem Start_accepts_any_configVer_witness :
    ((worldWith (sampleObjectToJsonStr docV2)).files (ConfigFilePath sampleEnv sampleMgr) =
        some (FileNode.file (sampleObjectToJsonStr docV2)) ∧
      0 < (sampleObjectToJsonStr docV2).length ∧
      sampleEnv.jsonUnmarshal (sampleObjectToJsonStr docV2) defaultConfig = (docV2, none) ∧
      docV2.SyncTaskList = [sampleTask "A" "A-1" "19519111" ""].map some ∧
      1 ≤ [sampleTask "A" "A-1" "19519111" ""].length) ∧
    (parseConfigFile sampleEnv sampleMgr
      (worldWith (sampleObjectToJsonStr docV2))).2.1.syncDriveConfig = some docV2 :=
  ⟨⟨by decide, by decide, by decide, rfl, by decide⟩,
    (Start_accepts_any_configVer sampleEnv sampleMgr (worldWith (sampleObjectToJsonStr docV2))
      (sampleObjectToJsonStr docV2) docV2 [sampleTask "A" "A-1" "19519111" ""]
      (by decide) (by decide) (by decide) rfl (by decide)).2.1⟩

end SyncDrive
